import Mathlib

/-!
Shallow embedding of the reference-integrity and tree-mutation engine of
`docling_core/types/doc/document.py` (the `DoclingDocument` class and its
supporting item/ref types), together with proofs about the claims of the
specification.

Modelling conventions, chosen to mirror the Python source:
* A `RefItem`'s `cref` string `"#/texts/3"` is represented structurally as
  `Ref.item .texts 3`; `"#/body"` as `Ref.body`; the placeholder `"#"` as
  `Ref.hash`.  Index arithmetic in the source (`_update_ref_with_lookup`)
  can produce negative indices, and Python list indexing wraps negative
  indices, so indices are `Int` and list access goes through `pyGet`.
* Python mutates `NodeItem` objects in place; every `NodeItem` of a
  document lives in exactly one collection slot (named by its `self_ref`),
  so the embedding rewrites the slot a live object occupies.  Methods that
  receive a `NodeItem` argument receive the corresponding `Node` value.
* A raised Python exception is an `Except.error`; where a claim needs the
  partially mutated state an operation returns `Doc × Option String`
  (the state reached, and the error message if one was raised).
* Fields of the pydantic models that no embedded operation reads or writes
  (bounding boxes, images, formatting, hyperlinks, code language, graph
  payloads) are omitted; all structurally relevant fields are kept.
-/

namespace Docling

/-- The `ContentLayer` enum of the source. -/
inductive ContentLayer
  | body
  | furniture
  | background
  | invisible
  | notes
deriving DecidableEq

/-- The six flat collections of a `DoclingDocument`. -/
inductive CollKind
  | groups
  | texts
  | pictures
  | tables
  | key_value_items
  | form_items
deriving DecidableEq

/-- A `RefItem.cref` JSON-pointer string, structurally. -/
inductive Ref
  | hash
  | body
  | item (kind : CollKind) (idx : Int)
deriving DecidableEq

/-- `ProvenanceItem`: only `page_no` is structurally relevant (bbox and
charspan are never read by the embedded operations). -/
structure ProvenanceItem where
  page_no : Int
deriving DecidableEq

/-- `PageItem` (its `size`/`image` payload is irrelevant to the claims). -/
structure PageItem where
  page_no : Int
deriving DecidableEq

/-- `GroupItem` subclasses: `ListGroup`, `InlineGroup`, and plain `GroupItem`. -/
inductive GroupKind
  | listGroup
  | inlineGroup
  | ordinary
deriving DecidableEq

/-- `TextItem` subclasses. -/
inductive TextKind
  | title
  | sectionHeader
  | listItem
  | code
  | formula
  | plain
deriving DecidableEq

/-- `DocItemLabel` values used by the embedded factories. -/
inductive DocItemLabel
  | title
  | section_header
  | list_item
  | code
  | formula
  | caption
  | text
  | paragraph
  | table
deriving DecidableEq

/-- Payload of a `TextItem` (formatting/hyperlink/font metadata omitted). -/
structure TextPayload where
  label : DocItemLabel
  text : String
  orig : String
  enumerated : Bool
  marker : String
  level : Nat
deriving DecidableEq

/-- A `TableCell`; `rich = some r` marks a `RichTableCell` with `ref = r`. -/
structure TableCell where
  row_span : Nat
  col_span : Nat
  start_row_offset_idx : Nat
  end_row_offset_idx : Nat
  start_col_offset_idx : Nat
  end_col_offset_idx : Nat
  text : String
  column_header : Bool
  row_header : Bool
  row_section : Bool
  rich : Option Ref
deriving DecidableEq

/-- `TableData`. -/
structure TableData where
  table_cells : List TableCell
  num_rows : Nat
  num_cols : Nat
deriving DecidableEq

/-- The variant part of a node: which pydantic class it instantiates. -/
inductive NodeVariant
  | group (kind : GroupKind) (name : String)
  | text (kind : TextKind) (payload : TextPayload)
  | picture
  | table (data : TableData)
  | keyValue
  | form
deriving DecidableEq

/-- A `NodeItem` together with the fields of its concrete subclass.
`prov` is meaningful for `DocItem` subclasses, and `captions`,
`references`, `footnotes` for `FloatingItem` subclasses; they are unused
otherwise. -/
structure Node where
  self_ref : Ref
  parent : Option Ref
  children : List Ref
  content_layer : ContentLayer
  variant : NodeVariant
  prov : List ProvenanceItem
  captions : List Ref
  references : List Ref
  footnotes : List Ref
deriving DecidableEq

/-- `isinstance(·, GroupItem)`. -/
def Node.isGroupItem (n : Node) : Bool :=
  match n.variant with
  | .group _ _ => true
  | _ => false

/-- `isinstance(·, DocItem)` (every non-group node class). -/
def Node.isDocItem (n : Node) : Bool := !n.isGroupItem

/-- `isinstance(·, ListGroup)`. -/
def Node.isListGroup (n : Node) : Bool :=
  match n.variant with
  | .group .listGroup _ => true
  | _ => false

/-- `isinstance(·, ListItem)`. -/
def Node.isListItem (n : Node) : Bool :=
  match n.variant with
  | .text .listItem _ => true
  | _ => false

/-- `isinstance(·, TextItem)` (includes code, formulas, titles, headings). -/
def Node.isTextItem (n : Node) : Bool :=
  match n.variant with
  | .text _ _ => true
  | _ => false

/-- `isinstance(·, PictureItem)`. -/
def Node.isPictureItem (n : Node) : Bool :=
  match n.variant with
  | .picture => true
  | _ => false

/-- `isinstance(·, TableItem)`. -/
def Node.isTableItem (n : Node) : Bool :=
  match n.variant with
  | .table _ => true
  | _ => false

/-- `isinstance(·, FloatingItem)`: pictures, tables, key-value items, form
items, and `CodeItem` (which subclasses both `FloatingItem` and `TextItem`). -/
def Node.isFloatingItem (n : Node) : Bool :=
  match n.variant with
  | .picture => true
  | .table _ => true
  | .keyValue => true
  | .form => true
  | .text .code _ => true
  | _ => false

/-- `NodeItem.get_ref`. -/
def Node.get_ref (n : Node) : Ref := n.self_ref

/-- The default root group `GroupItem(name="_root_", self_ref="#/body")`. -/
def mkBody : Node :=
  { self_ref := Ref.body
    parent := none
    children := []
    content_layer := ContentLayer.body
    variant := NodeVariant.group GroupKind.ordinary "_root_"
    prov := []
    captions := []
    references := []
    footnotes := [] }

/-- `CURRENT_VERSION` of the SDK schema. -/
def CURRENT_VERSION : String := "1.6.0"

/-- The `DoclingDocument` aggregate.  `pages` models the Python dict as an
insertion-ordered association list with unique keys. -/
structure DoclingDocument where
  name : String
  version : String
  body : Node
  groups : List Node
  texts : List Node
  pictures : List Node
  tables : List Node
  key_value_items : List Node
  form_items : List Node
  pages : List (Int × PageItem)
deriving DecidableEq

/-- `DoclingDocument(name=...)` with all collections empty. -/
def DoclingDocument.empty (name : String) : DoclingDocument :=
  { name := name
    version := CURRENT_VERSION
    body := mkBody
    groups := []
    texts := []
    pictures := []
    tables := []
    key_value_items := []
    form_items := []
    pages := [] }

/-- The collection named by a `CollKind`. -/
def DoclingDocument.getList (d : DoclingDocument) : CollKind → List Node
  | .groups => d.groups
  | .texts => d.texts
  | .pictures => d.pictures
  | .tables => d.tables
  | .key_value_items => d.key_value_items
  | .form_items => d.form_items

/-- Replace the collection named by a `CollKind`. -/
def DoclingDocument.setList (d : DoclingDocument) (k : CollKind) (l : List Node) :
    DoclingDocument :=
  match k with
  | .groups => { d with groups := l }
  | .texts => { d with texts := l }
  | .pictures => { d with pictures := l }
  | .tables => { d with tables := l }
  | .key_value_items => { d with key_value_items := l }
  | .form_items => { d with form_items := l }

/-- Python `l[i]` for `int` `i`: negative indices wrap once; out of range is
an `IndexError` (`none`). -/
def pyGet {α : Type} (l : List α) (i : Int) : Option α :=
  if 0 ≤ i then l[i.toNat]?
  else if 0 ≤ i + l.length then l[(i + l.length).toNat]?
  else none

/-- Python `l[i] = a` on a valid index; `none` when `l[i]` would raise. -/
def pySet {α : Type} (l : List α) (i : Int) (a : α) : Option (List α) :=
  if 0 ≤ i then (if i.toNat < l.length then some (l.set i.toNat a) else none)
  else if 0 ≤ i + l.length then some (l.set (i + l.length).toNat a)
  else none

/-- Python `del l[i]`; `none` when it would raise an `IndexError`. -/
def pyDelete {α : Type} (l : List α) (i : Int) : Option (List α) :=
  if 0 ≤ i then (if i.toNat < l.length then some (l.eraseIdx i.toNat) else none)
  else if 0 ≤ i + l.length then some (l.eraseIdx (i + l.length).toNat)
  else none

/-- `RefItem.resolve`: `"#/body"` resolves to the body root, a three-part
pointer indexes its collection; the bare `"#"` raises (`none`). -/
def Ref.resolve (r : Ref) (d : DoclingDocument) : Option Node :=
  match r with
  | .hash => none
  | .body => some d.body
  | .item k i => pyGet (d.getList k) i

/-- Write a node value back to the slot a live Python object occupies
(the body field, or the collection slot named by the reference).  Writing
through an unresolvable reference leaves the document unchanged (such a
write never happens in the embedded operations). -/
def DoclingDocument.setNode (d : DoclingDocument) (r : Ref) (n : Node) :
    DoclingDocument :=
  match r with
  | .hash => d
  | .body => { d with body := n }
  | .item k i =>
      match pySet (d.getList k) i n with
      | some l => d.setList k l
      | none => d

end Docling

namespace Docling

/-- `NodeItem._get_parent_ref`: with an empty stack, the node's own parent;
otherwise walk the stack downwards through `children`.  A dangling child
reference raises in Python (`Except.error`); a stack index out of range
returns `None`. -/
def Node.getParentRef (d : DoclingDocument) :
    Node → List Nat → Except String (Option Ref)
  | n, [] => .ok n.parent
  | n, i :: rest =>
      if h : i < n.children.length then
        match (n.children.get ⟨i, h⟩).resolve d with
        | some it => it.getParentRef d rest
        | none => .error "resolve"
      else .ok none

/-- `NodeItem._delete_child`: descend the stack from `self` (whose live
slot is `selfRef`) and splice the addressed child out of its parent's
`children`.  Returns whether a deletion happened, with the updated
document. -/
def Node.deleteChild (d : DoclingDocument) :
    Node → Ref → List Nat → Except String (Bool × DoclingDocument)
  | _, _, [] => .ok (false, d)
  | n, selfRef, [i] =>
      if i < n.children.length then
        .ok (true, d.setNode selfRef { n with children := n.children.eraseIdx i })
      else .ok (false, d)
  | n, _, i :: rest =>
      if h : i < n.children.length then
        let cref := n.children.get ⟨i, h⟩
        match cref.resolve d with
        | some it => it.deleteChild d cref rest
        | none => .error "resolve"
      else .ok (false, d)

/-- `NodeItem._add_child`: descend the stack; at its end, set the new
item's `parent` to the current node's reference and append the new
reference to the current node's `children`. -/
def Node.addChild (d : DoclingDocument) :
    Node → Ref → List Nat → Ref → Except String (Bool × DoclingDocument)
  | n, selfRef, [], newRef =>
      match newRef.resolve d with
      | none => .error "resolve new_ref"
      | some newItem =>
          let d1 := d.setNode newRef { newItem with parent := some n.get_ref }
          match selfRef.resolve d1 with
          | some selfNow =>
              .ok (true, d1.setNode selfRef
                    { selfNow with children := selfNow.children ++ [newRef] })
          | none => .error "self slot vanished"
  | n, _, i :: rest, newRef =>
      if h : i < n.children.length then
        let cref := n.children.get ⟨i, h⟩
        match cref.resolve d with
        | some it => it.addChild d cref rest newRef
        | none => .error "resolve"
      else .ok (false, d)

/-- `NodeItem._add_sibling`: descend the stack to the sibling's parent and
insert the new reference immediately before/after the sibling index. -/
def Node.addSibling (d : DoclingDocument) :
    Node → Ref → List Nat → Ref → Bool → Except String (Bool × DoclingDocument)
  | _, _, [], _, _ => .ok (false, d)
  | n, selfRef, [i], newRef, after =>
      if !after && i ≤ n.children.length then
        match newRef.resolve d with
        | none => .error "resolve new_ref"
        | some newItem =>
            let d1 := d.setNode newRef { newItem with parent := some n.get_ref }
            match selfRef.resolve d1 with
            | some selfNow =>
                .ok (true, d1.setNode selfRef
                      { selfNow with children := selfNow.children.insertIdx i newRef })
            | none => .error "self slot vanished"
      else if after && i < n.children.length then
        match newRef.resolve d with
        | none => .error "resolve new_ref"
        | some newItem =>
            let d1 := d.setNode newRef { newItem with parent := some n.get_ref }
            match selfRef.resolve d1 with
            | some selfNow =>
                .ok (true, d1.setNode selfRef
                      { selfNow with children := selfNow.children.insertIdx (i + 1) newRef })
            | none => .error "self slot vanished"
      else .ok (false, d)
  | n, _, i :: rest, newRef, after =>
      if h : i < n.children.length then
        let cref := n.children.get ⟨i, h⟩
        match cref.resolve d with
        | some it => it.addSibling d cref rest newRef after
        | none => .error "resolve"
      else .ok (false, d)

/-- First index of a reference in a children list (`list.index`, which
raises `ValueError` when absent — `none` here). -/
def indexOfRef (l : List Ref) (r : Ref) : Option Nat :=
  l.findIdx? (fun c => decide (c = r))

/-- The upward walk of `DoclingDocument._get_stack_of_refitem`: repeatedly
resolve the parent and prepend the index of the current node among the
parent's children.  `fuel` bounds the walk (the Python loop diverges on a
cyclic parent chain). -/
def getStackLoop (d : DoclingDocument) :
    Nat → Node → List Nat → Except String (Bool × List Nat)
  | 0, _, _ => .error "fuel"
  | fuel + 1, node, stack =>
      match node.parent with
      | none => .ok (true, stack)
      | some pref =>
          match pref.resolve d with
          | none => .error "resolve parent"
          | some parent =>
              match indexOfRef parent.children node.get_ref with
              | none => .error "ValueError: not in children"
              | some idx => getStackLoop d fuel parent (idx :: stack)

/-- `DoclingDocument._get_stack_of_refitem`. -/
def DoclingDocument.getStackOfRefitem (d : DoclingDocument) (fuel : Nat)
    (ref : Ref) : Except String (Bool × List Nat) :=
  if ref = d.body.get_ref then .ok (true, [])
  else
    match ref.resolve d with
    | none => .error "resolve"
    | some node =>
        match node.parent with
        | none => .ok (false, [])
        | some _ => getStackLoop d fuel node []

/-- `DoclingDocument._get_stack_of_item`. -/
def DoclingDocument.getStackOfItem (d : DoclingDocument) (fuel : Nat)
    (item : Node) : Except String (Bool × List Nat) :=
  d.getStackOfRefitem fuel item.get_ref

/-- The collection a node class is appended to by
`DoclingDocument._append_item` (the isinstance cascade of the source). -/
def collKindOf : NodeVariant → CollKind
  | .text _ _ => .texts
  | .table _ => .tables
  | .picture => .pictures
  | .keyValue => .key_value_items
  | .form => .form_items
  | .group _ _ => .groups

/-- `DoclingDocument._append_item`: append the item to the collection of
its type, rewriting its `self_ref` and `parent`.  Returns the updated
document, the mutated item (the live object), and the new reference. -/
def DoclingDocument.appendItem (d : DoclingDocument) (item : Node)
    (parentRef : Ref) : DoclingDocument × Node × Ref :=
  let k := collKindOf item.variant
  let idx : Int := (d.getList k).length
  let item' := { item with self_ref := Ref.item k idx, parent := some parentRef }
  (d.setList k (d.getList k ++ [item']), item', Ref.item k idx)

/-- `DoclingDocument._pop_item`: remove the item from its collection,
refusing unless it is the last element. -/
def DoclingDocument.popItem (d : DoclingDocument) (item : Node) :
    Except String DoclingDocument :=
  match item.self_ref with
  | .item k i =>
      if ((d.getList k).length : Int) = i + 1 then
        match pyDelete (d.getList k) i with
        | some l => .ok (d.setList k l)
        | none => .error "IndexError"
      else .error "Failed to pop: item is not last"
  | _ => .error "Can not pop item with path"

/-- `DoclingDocument.append_child_item`.  The result is the document state
reached together with the raised error, if any. -/
def DoclingDocument.appendChildItem (d : DoclingDocument) (fuel : Nat)
    (child : Node) (parent : Option Node) : DoclingDocument × Option String :=
  if child.children ≠ [] then
    (d, some "Can not append a child with children")
  else
    let parentNode := parent.getD d.body
    match d.getStackOfItem fuel parentNode with
    | .error e => (d, some ("raise: " ++ e))
    | .ok (false, _) => (d, some "Could not resolve the parent node in the document tree")
    | .ok (true, stack) =>
        let r := d.appendItem child parentNode.get_ref
        let d1 := r.1
        let childLive := r.2.1
        let cref := r.2.2
        match d1.body.addChild d1 Ref.body stack cref with
        | .error e => (d1, some ("raise: " ++ e))
        | .ok (true, d2) => (d2, none)
        | .ok (false, d2) =>
            match d2.popItem childLive with
            | .ok d3 => (d3, some "Could not append child")
            | .error e => (d2, some ("raise: " ++ e))

end Docling

namespace Docling

/-- The set `{c for c in ContentLayer}`. -/
def allLayers : List ContentLayer :=
  [ContentLayer.body, ContentLayer.furniture, ContentLayer.background,
   ContentLayer.invisible, ContentLayer.notes]

/-- `DEFAULT_CONTENT_LAYERS = {ContentLayer.BODY}`. -/
def DEFAULT_CONTENT_LAYERS : List ContentLayer := [ContentLayer.body]

/-- The child loop of `_iterate_items_with_stack`: resolve each child (a
dangling reference raises), skip the children a picture hides, and emit
the recursive traversal `f child (stack ++ [child_ind])` for the rest. -/
def iterChildren (d : DoclingDocument)
    (f : Node → List Nat → Except String (List (Node × List Nat)))
    (skip : Node → Bool) (stack : List Nat) :
    List (Nat × Ref) → Except String (List (Node × List Nat))
  | [] => .ok []
  | (i, cref) :: rest =>
      match cref.resolve d with
      | none => .error "resolve child"
      | some child =>
          if skip child then iterChildren d f skip stack rest
          else do
            let sub ← f child (stack ++ [i])
            let tail ← iterChildren d f skip stack rest
            .ok (sub ++ tail)

/-- `DoclingDocument._iterate_items_with_stack`: depth-first pre-order
traversal from `root`, yielding `(node, stack)` pairs.  `fuel` bounds the
recursion depth (the Python generator diverges on a cyclic tree). -/
def iterateWithStack (d : DoclingDocument) (withGroups traversePictures : Bool)
    (pageNo : Option Int) (layers : List ContentLayer) :
    Nat → Node → List Nat → Except String (List (Node × List Nat))
  | 0, _, _ => .error "fuel"
  | fuel + 1, root, stack => do
      let shouldYield :=
        (!root.isGroupItem || withGroups) &&
        (!root.isDocItem ||
          (match pageNo with
           | none => true
           | some p => root.prov.any (fun pr => decide (pr.page_no = p)))) &&
        layers.any (fun c => decide (c = root.content_layer))
      let rootIsPicture := root.isPictureItem
      let allowedPicRefs := if rootIsPicture then root.captions else []
      let skipFn := fun child =>
        rootIsPicture && !traversePictures &&
          !(allowedPicRefs.any (fun r => decide (r = child.self_ref)))
      let sub ← iterChildren d
        (fun c st => iterateWithStack d withGroups traversePictures pageNo layers fuel c st)
        skipFn stack root.children.enum
      .ok (if shouldYield then (root, stack) :: sub else sub)

/-- `DoclingDocument.iterate_items`: `(node, level)` pairs. -/
def DoclingDocument.iterateItems (d : DoclingDocument) (fuel : Nat)
    (root : Option Node) (withGroups traversePictures : Bool)
    (pageNo : Option Int) (layers : Option (List ContentLayer)) :
    Except String (List (Node × Nat)) := do
  let items ← iterateWithStack d withGroups traversePictures pageNo
    (layers.getD DEFAULT_CONTENT_LAYERS) fuel (root.getD d.body) []
  .ok (items.map (fun it => (it.1, it.2.length)))

/-- Lexicographic comparison of stack tuples, as Python compares `tuple`s
of `int`s in `sorted`. -/
def stackLtb : List Nat → List Nat → Bool
  | [], [] => false
  | [], _ :: _ => true
  | _ :: _, [] => false
  | a :: as, b :: bs => if a < b then true else if b < a then false else stackLtb as bs

/-- Insert one keyed entry into a list sorted ascending by `stackLtb`. -/
def insertSortedStack (x : List Nat × Ref) :
    List (List Nat × Ref) → List (List Nat × Ref)
  | [] => [x]
  | y :: ys => if stackLtb x.1 y.1 then x :: y :: ys else y :: insertSortedStack x ys

/-- `sorted(dict.items())` for a stack-keyed dict (keys are distinct). -/
def sortByStack (l : List (List Nat × Ref)) : List (List Nat × Ref) :=
  l.foldr insertSortedStack []

/-- Membership test of a stack key in a stack-keyed dict. -/
def assocHasStack (l : List (List Nat × Ref)) (k : List Nat) : Bool :=
  l.any (fun e => decide (e.1 = k))

/-- `dict[key] = value` for a stack-keyed dict: update in place if the key
exists (Python keeps its insertion position), else append. -/
def assocSetStack (k : List Nat) (v : Ref) :
    List (List Nat × Ref) → List (List Nat × Ref)
  | [] => [(k, v)]
  | e :: rest => if e.1 = k then (k, v) :: rest else e :: assocSetStack k v rest

/-- `del dict[key]` for a stack-keyed dict. -/
def assocRemoveStack (k : List Nat) :
    List (List Nat × Ref) → List (List Nat × Ref)
  | [] => []
  | e :: rest => if e.1 = k then rest else e :: assocRemoveStack k rest

/-- `[stack[0:i+1] for i in range(len(stack)-1)]`: the proper non-empty
prefixes of a stack. -/
def properPrefixesOf (stack : List Nat) : List (List Nat) :=
  (List.range (stack.length - 1)).map (fun i => stack.take (i + 1))

/-- The identification pass of `_delete_items`: traverse the whole tree
(all layers, with groups, traversing pictures) and record `stack ↦ cref`
for every requested reference and every node whose stack extends an
already-recorded stack. -/
def toBeDeletedItems (d : DoclingDocument) (fuel : Nat) (refs : List Ref) :
    Except String (List (List Nat × Ref)) := do
  let items ← iterateWithStack d true true none allLayers fuel d.body []
  .ok (items.foldl
    (fun acc it =>
      let ref := it.1.get_ref
      let stack := it.2
      let acc := if refs.any (fun r => decide (r = ref))
                 then assocSetStack stack ref acc else acc
      if (properPrefixesOf stack).any (fun s => assocHasStack acc s)
      then assocSetStack stack ref acc else acc)
    [])

/-- The tree-cleanup pass of `_delete_items`: splice out the recorded
stacks in reverse sorted order; a failed splice removes its entry from
the record. -/
def treeCleanup :
    DoclingDocument → List (List Nat × Ref) → List (List Nat × Ref) →
    Except (String × DoclingDocument) (DoclingDocument × List (List Nat × Ref))
  | d, [], tbd => .ok (d, tbd)
  | d, (stack, _) :: rest, tbd =>
      match d.body.deleteChild d Ref.body stack with
      | .error e => .error (e, d)
      | .ok (false, d') => treeCleanup d' rest (assocRemoveStack stack tbd)
      | .ok (true, d') => treeCleanup d' rest tbd

/-- The per-collection deletion table of `_delete_items`: an
insertion-ordered dict from collection to a dict of index deltas (each
recorded as `-1`). -/
def Lookup : Type := List (CollKind × List (Int × Int))

/-- Find a collection's delta dict. -/
def lookupFind (lk : Lookup) (k : CollKind) : Option (List (Int × Int)) :=
  match lk.find? (fun e => decide (e.1 = k)) with
  | some e => some e.2
  | none => none

/-- `lookup[label][index] = -1` with dict insertion-order semantics. -/
def lookupInsert (k : CollKind) (i : Int) : Lookup → Lookup
  | [] => [(k, [(i, -1)])]
  | e :: rest =>
      if e.1 = k then
        (k, if e.2.any (fun p => decide (p.1 = i))
            then e.2.map (fun p => if p.1 = i then (i, -1) else p)
            else e.2 ++ [(i, -1)]) :: rest
      else e :: lookupInsert k i rest

/-- Build the lookup from the recorded orphans (only three-part refs). -/
def buildLookup (tbd : List (List Nat × Ref)) : Lookup :=
  tbd.foldl
    (fun lk e =>
      match e.2 with
      | .item k i => lookupInsert k i lk
      | _ => lk)
    []

/-- `DoclingDocument._update_ref_with_lookup`: shift an index by the sum of
the deltas of all deleted indices at or before it. -/
def updateRefWithLookup (k : CollKind) (i : Int) (lk : Lookup) : Ref :=
  match lookupFind lk k with
  | none => Ref.item k i
  | some entries =>
      Ref.item k (i + entries.foldl (fun s p => if i ≥ p.1 then s + p.2 else s) 0)

/-- `DoclingDocument._update_refitems_with_lookup`: drop references that
are in the requested deletion list, renumber three-part references, keep
others unchanged. -/
def updateRefitemsWithLookup (refItems refsDel : List Ref) (lk : Lookup) :
    List Ref :=
  refItems.filterMap (fun r =>
    if refsDel.any (fun x => decide (x = r)) then none
    else
      match r with
      | .item k i => some (updateRefWithLookup k i lk)
      | other => some other)

/-- Renumber the rich cells of a table; a rich cell whose reference is not
a three-part pointer raises in Python (`int(path[2])` / `path[2]` fails),
carrying the cells rewritten so far. -/
def updateRichCells (lk : Lookup) :
    List TableCell → Except (String × List TableCell) (List TableCell)
  | [] => .ok []
  | cell :: rest =>
      match cell.rich with
      | some (Ref.item k i) =>
          let cell' := { cell with rich := some (updateRefWithLookup k i lk) }
          match updateRichCells lk rest with
          | .ok l => .ok (cell' :: l)
          | .error (e, l) => .error (e, cell' :: l)
      | some _ => .error ("rich cell ref has no index", cell :: rest)
      | none =>
          match updateRichCells lk rest with
          | .ok l => .ok (cell :: l)
          | .error (e, l) => .error (e, cell :: l)

/-- Sequence a document-threading action over a list of child references. -/
def updBFChildren
    (f : DoclingDocument → Ref → Except (String × DoclingDocument) DoclingDocument) :
    DoclingDocument → List Ref → Except (String × DoclingDocument) DoclingDocument
  | d, [] => .ok d
  | d, c :: rest =>
      match f d c with
      | .error e => .error e
      | .ok d' => updBFChildren f d' rest

/-- `DoclingDocument._update_breadth_first_with_lookup`, rewriting the node
in its (already compacted) slot `curRef` and recursing over its updated
children.  Errors carry the partially rewritten document. -/
def updateBreadthFirstWithLookup (refsDel : List Ref) (lk : Lookup) :
    Nat → DoclingDocument → Ref → Except (String × DoclingDocument) DoclingDocument
  | 0, d, _ => .error ("fuel", d)
  | fuel + 1, d, curRef =>
      match curRef.resolve d with
      | none => .error ("resolve node", d)
      | some n =>
          -- captions, references and footnote references of floating items
          let n1 := if n.isFloatingItem then
              { n with captions := updateRefitemsWithLookup n.captions refsDel lk
                       references := updateRefitemsWithLookup n.references refsDel lk
                       footnotes := updateRefitemsWithLookup n.footnotes refsDel lk }
            else n
          -- rich table cell references
          match (match n1.variant with
                 | .table data =>
                     (updateRichCells lk data.table_cells).map
                       (fun cells => { n1 with variant := NodeVariant.table { data with table_cells := cells } })
                     |>.mapError (fun e =>
                       (e.1, { n1 with variant := NodeVariant.table { data with table_cells := e.2 } }))
                 | _ => .ok n1 : Except (String × Node) Node) with
          | .error (e, nPartial) => .error (e, d.setNode curRef nPartial)
          | .ok n2 =>
              -- parent reference
              let n3 := match n2.parent with
                | some (Ref.item k i) => { n2 with parent := some (updateRefWithLookup k i lk) }
                | _ => n2
              -- self reference
              let n4 := match n3.self_ref with
                | Ref.item k i => { n3 with self_ref := (updateRefWithLookup k i lk) }
                | _ => n3
              -- child references
              let n5 := { n4 with children := updateRefitemsWithLookup n4.children refsDel lk }
              let d1 := d.setNode curRef n5
              updBFChildren
                (fun dd c => updateBreadthFirstWithLookup refsDel lk fuel dd c)
                d1 n5.children

end Docling

namespace Docling

/-- Insert into a list sorted ascending by the integer key. -/
def insertSortedInt (x : Int × Int) : List (Int × Int) → List (Int × Int)
  | [] => [x]
  | y :: ys => if x.1 < y.1 then x :: y :: ys else y :: insertSortedInt x ys

/-- `sorted(item_inds.items())` (keys are distinct). -/
def sortIntPairs (l : List (Int × Int)) : List (Int × Int) :=
  l.foldr insertSortedInt []

/-- `del collection[index]` in descending index order for one collection. -/
def removeIndicesDesc (d : DoclingDocument) (k : CollKind) :
    List (Int × Int) → Except (String × DoclingDocument) DoclingDocument
  | [] => .ok d
  | (i, _) :: rest =>
      match pyDelete (d.getList k) i with
      | some l => removeIndicesDesc (d.setList k l) k rest
      | none => .error ("IndexError", d)

/-- The orphan-removal pass of `_delete_items`: for each collection of the
lookup (in insertion order), delete the recorded indices last-first. -/
def removeFromCollections (d : DoclingDocument) :
    Lookup → Except (String × DoclingDocument) DoclingDocument
  | [] => .ok d
  | (k, inds) :: rest =>
      match removeIndicesDesc d k (sortIntPairs inds).reverse with
      | .error e => .error e
      | .ok d' => removeFromCollections d' rest

/-- `DoclingDocument._delete_items`.  Returns the document state reached
and the raised error, if any. -/
def DoclingDocument.deleteItemsCore (d : DoclingDocument) (fuel : Nat)
    (refs : List Ref) : DoclingDocument × Option String :=
  if refs.isEmpty then (d, none)
  else
    match toBeDeletedItems d fuel refs with
    | .error e => (d, some ("raise: " ++ e))
    | .ok tbd =>
        if tbd.length < refs.length then
          (d, some "Cannot find all provided RefItems in doc")
        else
          match treeCleanup d (sortByStack tbd).reverse tbd with
          | .error (e, d1) => (d1, some ("raise: " ++ e))
          | .ok (d1, tbd1) =>
              let lk := buildLookup tbd1
              match removeFromCollections d1 lk with
              | .error (e, d2) => (d2, some ("raise: " ++ e))
              | .ok d2 =>
                  match updateBreadthFirstWithLookup refs lk fuel d2 Ref.body with
                  | .error (e, d3) => (d3, some ("raise: " ++ e))
                  | .ok d3 => (d3, none)

/-- `DoclingDocument.delete_items` (public): collect the refs of the given
node items, then delete. -/
def DoclingDocument.delete_items (d : DoclingDocument) (fuel : Nat)
    (node_items : List Node) : DoclingDocument × Option String :=
  d.deleteItemsCore fuel (node_items.map Node.get_ref)

/-- The child loop of `validate_tree`: each child must resolve, have a
parent, and that parent must resolve back to this node; then the child's
subtree is validated by `f`. -/
def vtChildren (d : DoclingDocument) (f : Node → Except String Bool)
    (root : Node) : List Ref → Except String Bool
  | [] => .ok true
  | cref :: rest =>
      match cref.resolve d with
      | none => .error "resolve child"
      | some child =>
          match child.parent with
          | none => .error "child.parent is None"
          | some pr =>
              match pr.resolve d with
              | none => .error "resolve child.parent"
              | some pp =>
                  if pp ≠ root then .ok false
                  else
                    match f child with
                    | .error e => .error e
                    | .ok false => .ok false
                    | .ok true => vtChildren d f root rest

/-- The rich-cell loop of `validate_tree`: every rich cell's referenced
node must have a parent resolving to this table. -/
def vtRichCells (d : DoclingDocument) (root : Node) :
    List TableCell → Except String Bool
  | [] => .ok true
  | cell :: rest =>
      match cell.rich with
      | none => vtRichCells d root rest
      | some r =>
          match r.resolve d with
          | none => .error "resolve rich cell"
          | some it =>
              match it.parent with
              | none => .ok false
              | some pr =>
                  match pr.resolve d with
                  | none => .error "resolve rich cell parent"
                  | some pp =>
                      if pp ≠ root then .ok false
                      else vtRichCells d root rest

/-- `DoclingDocument.validate_tree`. -/
def DoclingDocument.validateTree (d : DoclingDocument) :
    Nat → Node → Except String Bool
  | 0, _ => .error "fuel"
  | fuel + 1, root => do
      let cres ← vtChildren d (fun c => d.validateTree fuel c) root root.children
      if !cres then .ok false
      else
        match root.variant with
        | .table data => vtRichCells d root data.table_cells
        | _ => .ok true

/-- `if not orig: orig = text` (Python falsiness: `None` or `""`). -/
def origOr (orig : Option String) (text : String) : String :=
  match orig with
  | none => text
  | some s => if s = "" then text else s

/-- The shared tail of the `add_*` factories:
`self.<collection>.append(item); parent.children.append(RefItem(cref))`,
the parent defaulting to the body root. -/
def DoclingDocument.linkUnderParent (d : DoclingDocument) (item : Node)
    (k : CollKind) (parent : Option Node) :
    Except String (DoclingDocument × Node) :=
  let d1 := d.setList k (d.getList k ++ [item])
  let pRef := (parent.getD d.body).get_ref
  match pRef.resolve d1 with
  | some live =>
      .ok (d1.setNode pRef { live with children := live.children ++ [item.self_ref] },
           item)
  | none => .error "embedding: parent object is not a live node of the document"

/-- `DoclingDocument.add_list_group`. -/
def DoclingDocument.addListGroup (d : DoclingDocument) (name : Option String)
    (parent : Option Node) (content_layer : Option ContentLayer) :
    Except String (DoclingDocument × Node) :=
  let cref := Ref.item CollKind.groups d.groups.length
  let g : Node :=
    { self_ref := cref
      parent := some (parent.getD d.body).get_ref
      children := []
      content_layer := content_layer.getD ContentLayer.body
      variant := NodeVariant.group GroupKind.listGroup (name.getD "group")
      prov := [], captions := [], references := [], footnotes := [] }
  d.linkUnderParent g CollKind.groups parent

/-- `DoclingDocument.add_inline_group`. -/
def DoclingDocument.addInlineGroup (d : DoclingDocument) (name : Option String)
    (parent : Option Node) (content_layer : Option ContentLayer) :
    Except String (DoclingDocument × Node) :=
  let cref := Ref.item CollKind.groups d.groups.length
  let g : Node :=
    { self_ref := cref
      parent := some (parent.getD d.body).get_ref
      children := []
      content_layer := content_layer.getD ContentLayer.body
      variant := NodeVariant.group GroupKind.inlineGroup (name.getD "group")
      prov := [], captions := [], references := [], footnotes := [] }
  d.linkUnderParent g CollKind.groups parent

/-- `GroupLabel` values relevant to `add_group` dispatch. -/
inductive GroupLabel
  | list
  | ordered_list
  | inline
  | unspecified
deriving DecidableEq

/-- `DoclingDocument.add_group` (the label of a plain group is not stored:
no embedded operation reads it). -/
def DoclingDocument.addGroup (d : DoclingDocument) (label : Option GroupLabel)
    (name : Option String) (parent : Option Node)
    (content_layer : Option ContentLayer) :
    Except String (DoclingDocument × Node) :=
  match label with
  | some GroupLabel.list => d.addListGroup name parent content_layer
  | some GroupLabel.ordered_list => d.addListGroup name parent content_layer
  | some GroupLabel.inline => d.addInlineGroup name parent content_layer
  | _ =>
      let cref := Ref.item CollKind.groups d.groups.length
      let g : Node :=
        { self_ref := cref
          parent := some (parent.getD d.body).get_ref
          children := []
          content_layer := content_layer.getD ContentLayer.body
          variant := NodeVariant.group GroupKind.ordinary (name.getD "group")
          prov := [], captions := [], references := [], footnotes := [] }
      d.linkUnderParent g CollKind.groups parent

/-- `DoclingDocument.add_list_item`: a non-`ListGroup` (or absent) parent
first gets a fresh `ListGroup` synthesized under it. -/
def DoclingDocument.addListItem (d : DoclingDocument) (text : String)
    (enumerated : Bool) (marker : Option String) (orig : Option String)
    (provOpt : Option ProvenanceItem) (parent : Option Node)
    (content_layer : Option ContentLayer) :
    Except String (DoclingDocument × Node) := do
  let pr ←
    match parent with
    | some p =>
        if p.isListGroup then Except.ok (d, p)
        else d.addListGroup none (some p) none
    | none => d.addListGroup none none none
  let d1 := pr.1
  let parentObj := pr.2
  let o := origOr orig text
  let cref := Ref.item CollKind.texts d1.texts.length
  let li : Node :=
    { self_ref := cref
      parent := some parentObj.get_ref
      children := []
      content_layer := content_layer.getD ContentLayer.body
      variant := NodeVariant.text TextKind.listItem
        { label := DocItemLabel.list_item, text := text, orig := o,
          enumerated := enumerated, marker := marker.getD "", level := 0 }
      prov := provOpt.toList
      captions := [], references := [], footnotes := [] }
  d1.linkUnderParent li CollKind.texts (some parentObj)

end Docling

namespace Docling

/-- `DoclingDocument.add_title`. -/
def DoclingDocument.addTitle (d : DoclingDocument) (text : String)
    (orig : Option String) (provOpt : Option ProvenanceItem)
    (parent : Option Node) (content_layer : Option ContentLayer) :
    Except String (DoclingDocument × Node) :=
  let cref := Ref.item CollKind.texts d.texts.length
  let item : Node :=
    { self_ref := cref
      parent := some (parent.getD d.body).get_ref
      children := []
      content_layer := content_layer.getD ContentLayer.body
      variant := NodeVariant.text TextKind.title
        { label := DocItemLabel.title, text := text, orig := origOr orig text,
          enumerated := false, marker := "", level := 0 }
      prov := provOpt.toList
      captions := [], references := [], footnotes := [] }
  d.linkUnderParent item CollKind.texts parent

/-- `DoclingDocument.add_heading` (a `SectionHeaderItem` with a level). -/
def DoclingDocument.addHeading (d : DoclingDocument) (text : String)
    (orig : Option String) (level : Nat) (provOpt : Option ProvenanceItem)
    (parent : Option Node) (content_layer : Option ContentLayer) :
    Except String (DoclingDocument × Node) :=
  let cref := Ref.item CollKind.texts d.texts.length
  let item : Node :=
    { self_ref := cref
      parent := some (parent.getD d.body).get_ref
      children := []
      content_layer := content_layer.getD ContentLayer.body
      variant := NodeVariant.text TextKind.sectionHeader
        { label := DocItemLabel.section_header, text := text,
          orig := origOr orig text, enumerated := false, marker := "",
          level := level }
      prov := provOpt.toList
      captions := [], references := [], footnotes := [] }
  d.linkUnderParent item CollKind.texts parent

/-- `DoclingDocument.add_code` (a `CodeItem` is a floating text item and
may carry a caption reference; its code language is not stored). -/
def DoclingDocument.addCode (d : DoclingDocument) (text : String)
    (orig : Option String) (caption : Option Ref)
    (provOpt : Option ProvenanceItem) (parent : Option Node)
    (content_layer : Option ContentLayer) :
    Except String (DoclingDocument × Node) :=
  let cref := Ref.item CollKind.texts d.texts.length
  let item : Node :=
    { self_ref := cref
      parent := some (parent.getD d.body).get_ref
      children := []
      content_layer := content_layer.getD ContentLayer.body
      variant := NodeVariant.text TextKind.code
        { label := DocItemLabel.code, text := text, orig := origOr orig text,
          enumerated := false, marker := "", level := 0 }
      prov := provOpt.toList
      captions := caption.toList, references := [], footnotes := [] }
  d.linkUnderParent item CollKind.texts parent

/-- `DoclingDocument.add_formula`. -/
def DoclingDocument.addFormula (d : DoclingDocument) (text : String)
    (orig : Option String) (provOpt : Option ProvenanceItem)
    (parent : Option Node) (content_layer : Option ContentLayer) :
    Except String (DoclingDocument × Node) :=
  let cref := Ref.item CollKind.texts d.texts.length
  let item : Node :=
    { self_ref := cref
      parent := some (parent.getD d.body).get_ref
      children := []
      content_layer := content_layer.getD ContentLayer.body
      variant := NodeVariant.text TextKind.formula
        { label := DocItemLabel.formula, text := text, orig := origOr orig text,
          enumerated := false, marker := "", level := 0 }
      prov := provOpt.toList
      captions := [], references := [], footnotes := [] }
  d.linkUnderParent item CollKind.texts parent

/-- `DoclingDocument.add_text`: special labels are redirected to their
dedicated factories, anything else appends a plain `TextItem`. -/
def DoclingDocument.addText (d : DoclingDocument) (label : DocItemLabel)
    (text : String) (orig : Option String) (provOpt : Option ProvenanceItem)
    (parent : Option Node) (content_layer : Option ContentLayer) :
    Except String (DoclingDocument × Node) :=
  match label with
  | DocItemLabel.title => d.addTitle text orig provOpt parent content_layer
  | DocItemLabel.list_item =>
      d.addListItem text false none orig provOpt parent content_layer
  | DocItemLabel.section_header =>
      d.addHeading text orig 1 provOpt parent content_layer
  | DocItemLabel.code => d.addCode text orig none provOpt parent content_layer
  | DocItemLabel.formula => d.addFormula text orig provOpt parent content_layer
  | _ =>
      let cref := Ref.item CollKind.texts d.texts.length
      let item : Node :=
        { self_ref := cref
          parent := some (parent.getD d.body).get_ref
          children := []
          content_layer := content_layer.getD ContentLayer.body
          variant := NodeVariant.text TextKind.plain
            { label := label, text := text, orig := origOr orig text,
              enumerated := false, marker := "", level := 0 }
          prov := provOpt.toList
          captions := [], references := [], footnotes := [] }
      d.linkUnderParent item CollKind.texts parent

/-- `DoclingDocument.add_table` (the table label is not stored: no
embedded operation reads it). -/
def DoclingDocument.addTable (d : DoclingDocument) (data : TableData)
    (caption : Option Ref) (provOpt : Option ProvenanceItem)
    (parent : Option Node) (content_layer : Option ContentLayer) :
    Except String (DoclingDocument × Node) :=
  let cref := Ref.item CollKind.tables d.tables.length
  let item : Node :=
    { self_ref := cref
      parent := some (parent.getD d.body).get_ref
      children := []
      content_layer := content_layer.getD ContentLayer.body
      variant := NodeVariant.table data
      prov := provOpt.toList
      captions := caption.toList, references := [], footnotes := [] }
  d.linkUnderParent item CollKind.tables parent

/-- `DoclingDocument.add_table_cell`: a rich cell may only be added when
its referenced node's parent is the table. -/
def DoclingDocument.addTableCell (d : DoclingDocument) (tableRef : Ref)
    (cell : TableCell) : Except String DoclingDocument := do
  let some tbl := tableRef.resolve d | .error "resolve table"
  match tbl.variant with
  | NodeVariant.table data =>
      let data' : TableData := { data with table_cells := data.table_cells ++ [cell] }
      let tbl' : Node := { tbl with variant := NodeVariant.table data' }
      match cell.rich with
      | some r =>
          match r.resolve d with
          | none => .error "resolve rich cell ref"
          | some it =>
              if it.parent = none ∨ it.parent ≠ some tbl.self_ref then
                .error "Trying to add cell with another parent"
              else
                .ok (d.setNode tableRef tbl')
      | none => .ok (d.setNode tableRef tbl')
  | _ => .error "not a table"

/-- `dict[key] = value` for the page registry: update in place when the
key exists (keeping its position), append otherwise. -/
def pagesInsert (k : Int) (v : PageItem) :
    List (Int × PageItem) → List (Int × PageItem)
  | [] => [(k, v)]
  | e :: rest => if e.1 = k then (k, v) :: rest else e :: pagesInsert k v rest

/-- `DoclingDocument.add_page` (size and image are not modelled). -/
def DoclingDocument.addPage (d : DoclingDocument) (page_no : Int) :
    DoclingDocument :=
  { d with pages := pagesInsert page_no { page_no := page_no } d.pages }

end Docling

namespace Docling

/-- Resolve a list of references against a (source) document; `none` when
any resolution raises. -/
def resolveAll (src : DoclingDocument) : List Ref → Option (List Node)
  | [] => some []
  | r :: rest =>
      match r.resolve src with
      | none => none
      | some n =>
          match resolveAll src rest with
          | none => none
          | some l => some (n :: l)

/-- `DoclingDocument._append_item_copies`: append deep copies of the given
source-document items (and, recursively, their children) under
`parentRef`, returning the new references in order.  Errors carry the
partially extended document. -/
def appendItemCopies :
    Nat → DoclingDocument → List Node → Ref → DoclingDocument →
    Except (String × DoclingDocument) (List Ref × DoclingDocument)
  | _, d, [], _, _ => .ok ([], d)
  | 0, d, _ :: _, _, _ => .error ("fuel", d)
  | fuel + 1, d, item :: rest, parentRef, src =>
      let r := d.appendItem item parentRef
      let d1 := r.1
      let copyLive := r.2.1
      let stepE : Except (String × DoclingDocument) DoclingDocument :=
        if copyLive.children.isEmpty then .ok d1
        else
          match resolveAll src copyLive.children with
          | none => .error ("resolve child in source", d1)
          | some childNodes =>
              match appendItemCopies fuel d1 childNodes copyLive.get_ref src with
              | .error e => .error e
              | .ok (childRefs, d2) =>
                  match copyLive.get_ref.resolve d2 with
                  | some liveNow =>
                      .ok (d2.setNode copyLive.get_ref
                            { liveNow with children := childRefs })
                  | none => .error ("embedding: copy slot vanished", d2)
      match stepE with
      | .error e => .error e
      | .ok d3 =>
          match appendItemCopies fuel d3 rest parentRef src with
          | .error e => .error e
          | .ok (refs, d4) => .ok (copyLive.get_ref :: refs, d4)

/-- `DoclingDocument.add_node_items`: reject directly supplied `ListItem`s
under a non-`ListGroup` parent, then append copies and link them under the
parent. -/
def DoclingDocument.addNodeItems (d : DoclingDocument) (fuel : Nat)
    (node_items : List Node) (src : DoclingDocument) (parent : Option Node) :
    DoclingDocument × Option String :=
  let parentObj := parent.getD d.body
  if !parentObj.isListGroup && node_items.any Node.isListItem then
    (d, some "Cannot add ListItem into a non-ListGroup parent.")
  else
    let parentRef := parentObj.get_ref
    match appendItemCopies fuel d node_items parentRef src with
    | .error (e, d1) => (d1, some ("raise: " ++ e))
    | .ok (newRefs, d1) =>
        match parentRef.resolve d1 with
        | some live =>
            (d1.setNode parentRef { live with children := live.children ++ newRefs },
             none)
        | none => (d1, some "embedding: parent object is not a live node")

/-- The splice loop of `insert_node_items`: add each new reference as a
sibling at the stack, in reversed order. -/
def insertSiblingLoop (stack : List Nat) (after : Bool) :
    DoclingDocument → List Ref → DoclingDocument × Option String
  | d, [] => (d, none)
  | d, ref :: rest =>
      match d.body.addSibling d Ref.body stack ref after with
      | .error e => (d, some ("raise: " ++ e))
      | .ok (false, d') => (d', some "Could not insert item")
      | .ok (true, d') => insertSiblingLoop stack after d' rest

/-- `DoclingDocument.insert_node_items`. -/
def DoclingDocument.insertNodeItems (d : DoclingDocument) (fuel : Nat)
    (sibling : Node) (node_items : List Node) (src : DoclingDocument)
    (after : Bool) : DoclingDocument × Option String :=
  let parentE : Except String Node :=
    match sibling.parent with
    | some pr =>
        match pr.resolve d with
        | some p => .ok p
        | none => .error "resolve sibling.parent"
    | none => .ok d.body
  match parentE with
  | .error e => (d, some ("raise: " ++ e))
  | .ok parentObj =>
      if !parentObj.isListGroup && node_items.any Node.isListItem then
        (d, some "Cannot insert ListItem into a non-ListGroup parent.")
      else
        match appendItemCopies fuel d node_items parentObj.get_ref src with
        | .error (e, d1) => (d1, some ("raise: " ++ e))
        | .ok (newRefs, d1) =>
            match d1.getStackOfRefitem fuel sibling.get_ref with
            | .error e => (d1, some ("raise: " ++ e))
            | .ok (false, _) =>
                (d1, some "Could not insert: could not find the stack")
            | .ok (true, stack) => insertSiblingLoop stack after d1 newRefs.reverse

/-- Insert into an ascending list of integers. -/
def insertSortedSingle (x : Int) : List Int → List Int
  | [] => [x]
  | y :: ys => if x < y then x :: y :: ys else y :: insertSortedSingle x ys

/-- `sorted(indices)` for a list of integers. -/
def sortInts (l : List Int) : List Int :=
  l.foldr insertSortedSingle []

/-- The per-row loop of `TableData.remove_rows` (indices already sorted
descending): slice out the row, decrement `num_rows`, and reassign every
remaining cell's row offsets from its flat position. -/
def removeRowsLoop :
    TableData → List Int → List (List TableCell) → List Ref →
    Except String (TableData × List (List TableCell) × List Ref)
  | data, [], accRows, accRefs => .ok (data, accRows, accRefs)
  | data, ri :: rest, accRows, accRefs =>
      if ri < 0 ∨ (data.num_rows : Int) ≤ ri then
        .error "Row index is out of bounds"
      else
        let r := ri.toNat
        let start := r * data.num_cols
        let stop := start + data.num_cols
        let removed := (data.table_cells.drop start).take data.num_cols
        let newRefs := removed.filterMap (fun c => c.rich)
        let cells1 := data.table_cells.take start ++ data.table_cells.drop stop
        if data.num_cols = 0 ∧ cells1 ≠ [] then .error "ZeroDivisionError"
        else
          let cells2 := cells1.enum.map (fun p =>
            let ni := p.1 / data.num_cols
            { p.2 with start_row_offset_idx := ni, end_row_offset_idx := ni + 1 })
          removeRowsLoop
            { table_cells := cells2, num_rows := data.num_rows - 1,
              num_cols := data.num_cols }
            rest (accRows ++ [removed]) (accRefs ++ newRefs)

/-- `TableData.remove_rows`: remove the rows at the given indices; rich
cell contents are deleted from the owning document when one is supplied
(otherwise only a warning is logged). -/
def TableData.removeRows (data : TableData) (indices : List Int)
    (doc : Option DoclingDocument) (fuel : Nat) :
    Except String ((TableData × Option DoclingDocument) × List (List TableCell)) := do
  if indices.isEmpty then .ok ((data, doc), [])
  else
    match removeRowsLoop data (sortInts indices).reverse [] [] with
    | .error e => .error e
    | .ok (data', rows, refs) =>
        if refs.isEmpty then .ok ((data', doc), rows)
        else
          match doc with
          | none => .ok ((data', none), rows)
          | some dd =>
              match dd.deleteItemsCore fuel refs with
              | (d', none) => .ok ((data', some d'), rows)
              | (_, some e) => .error e

/-- `TableData.remove_row`. -/
def TableData.removeRow (data : TableData) (ri : Int)
    (doc : Option DoclingDocument) (fuel : Nat) :
    Except String ((TableData × Option DoclingDocument) × List TableCell) := do
  let r ← data.removeRows [ri] doc fuel
  match r.2 with
  | row :: _ => .ok ((r.1.1, r.1.2), row)
  | [] => .error "IndexError"

/-- Split a character list at the dots. -/
def splitDot : List Char → List (List Char)
  | [] => [[]]
  | c :: rest =>
      if c = '.' then [] :: splitDot rest
      else
        match splitDot rest with
        | [] => [[c]]
        | g :: gs => (c :: g) :: gs

/-- Whether every character is a decimal digit. -/
def allDigits (cs : List Char) : Bool :=
  cs.all (fun c => '0' ≤ c && c ≤ '9')

/-- Modelled from the spec: `VERSION_PATTERN` lives in
`docling_core/search/package.py`, which is not among the sources; the spec
describes the load-time gate in terms of major/minor version components,
so the pattern is modelled as a semantic-version triple of decimal
components `major.minor.patch`. -/
def parseVersionTriple (s : String) : Option (String × String × String) :=
  match splitDot s.toList with
  | [a, b, c] =>
      if a ≠ [] ∧ b ≠ [] ∧ c ≠ [] ∧ allDigits (a ++ b ++ c) then
        some (String.mk a, String.mk b, String.mk c)
      else none
  | _ => none

/-- Python string comparison `a < b`: lexicographic on code points. -/
def pyStrLtChars : List Char → List Char → Bool
  | [], [] => false
  | [], _ :: _ => true
  | _ :: _, [] => false
  | a :: as, b :: bs => if a < b then true else if b < a then false else pyStrLtChars as bs

/-- Python `a > b` on strings. -/
def pyStrGt (a b : String) : Bool := pyStrLtChars b.toList a.toList

/-- `DoclingDocument.check_version_is_compatible` as the source implements
it: the match groups are *strings*, so both the major equality and the
minor comparison are string comparisons.  Returns whether the version is
accepted. -/
def checkVersionIsCompatible (v : String) : Bool :=
  match parseVersionTriple CURRENT_VERSION, parseVersionTriple v with
  | some sdk, some docm => decide (docm.1 = sdk.1) && !pyStrGt docm.2.1 sdk.2.1
  | _, _ => false

/-- The number denoted by a list of decimal digits. -/
def digitsToNat (cs : List Char) : Nat :=
  cs.foldl (fun n c => n * 10 + (c.toNat - '0'.toNat)) 0

/-- The numeric value of a version component string. -/
def componentToNat (s : String) : Nat := digitsToNat s.toList

/-- The version gate as the specification claims it: the major components
are equal and the minor component does not exceed the SDK minor, as
numbers. -/
def specVersionCompatible (v : String) : Bool :=
  match parseVersionTriple CURRENT_VERSION, parseVersionTriple v with
  | some sdk, some docm =>
      decide (componentToNat docm.1 = componentToNat sdk.1) &&
      decide (componentToNat docm.2.1 ≤ componentToNat sdk.2.1)
  | _, _ => false

end Docling

namespace Docling

/-- `dict[key] = value` for the original-ref-to-new-ref table of
`_DocIndex.index`. -/
def refMapSet (k v : Ref) : List (Ref × Ref) → List (Ref × Ref)
  | [] => [(k, v)]
  | e :: rest => if e.1 = k then (k, v) :: rest else e :: refMapSet k v rest

/-- Dictionary access in the original-ref-to-new-ref table (`KeyError`
when absent — `none`). -/
def refMapGet (m : List (Ref × Ref)) (k : Ref) : Option Ref :=
  match m.find? (fun e => decide (e.1 = k)) with
  | some e => some e.2
  | none => none

/-- Replace the first occurrence of a reference in a list (the
caption-fixing loop of `_DocIndex.index`, which `break`s after one hit). -/
def replaceFirstRef (old new : Ref) : List Ref → List Ref
  | [] => []
  | x :: rest => if x = old then new :: rest else x :: replaceFirstRef old new rest

/-- Replace the reference of the first rich cell matching `old` (the
rich-cell-fixing loop of `_DocIndex.index`, which `break`s after one hit). -/
def replaceFirstRichCell (old new : Ref) : List TableCell → List TableCell
  | [] => []
  | c :: rest =>
      match c.rich with
      | some r =>
          if r = old then { c with rich := some new } :: rest
          else c :: replaceFirstRichCell old new rest
      | none => c :: replaceFirstRichCell old new rest

/-- `DoclingDocument._DocIndex`: the document merge buffer. -/
structure DocIndex where
  groups : List Node
  texts : List Node
  pictures : List Node
  tables : List Node
  key_value_items : List Node
  form_items : List Node
  pages : List (Int × PageItem)
  bodyOpt : Option Node
  maxPage : Int
  names : List String
deriving DecidableEq

/-- A fresh merge buffer. -/
def DocIndex.empty : DocIndex :=
  { groups := [], texts := [], pictures := [], tables := [],
    key_value_items := [], form_items := [], pages := [],
    bodyOpt := none, maxPage := 0, names := [] }

/-- `_DocIndex.get_item_list`. -/
def DocIndex.getList (st : DocIndex) : CollKind → List Node
  | .groups => st.groups
  | .texts => st.texts
  | .pictures => st.pictures
  | .tables => st.tables
  | .key_value_items => st.key_value_items
  | .form_items => st.form_items

/-- Replace one collection of the merge buffer. -/
def DocIndex.setList (st : DocIndex) (k : CollKind) (l : List Node) : DocIndex :=
  match k with
  | .groups => { st with groups := l }
  | .texts => { st with texts := l }
  | .pictures => { st with pictures := l }
  | .tables => { st with tables := l }
  | .key_value_items => { st with key_value_items := l }
  | .form_items => { st with form_items := l }

/-- One iteration of the item loop of `_DocIndex.index`: register the
cref mapping, deep-copy the item into the right list with a fresh
reference and shifted provenance pages, and link it under its (already
indexed) parent. -/
def indexOneItem (st : DocIndex) (map : List (Ref × Ref)) (item : Node)
    (delta : Int) : Except String (DocIndex × List (Ref × Ref)) :=
  match item.self_ref with
  | Ref.hash => .error "IndexError: ref has no collection component"
  | Ref.body => .ok (st, refMapSet Ref.body Ref.body map)
  | Ref.item k _ =>
      let newCref := Ref.item k (st.getList k).length
      let map1 := refMapSet item.self_ref newCref map
      let newItem0 : Node := { item with children := [], self_ref := newCref }
      let shiftedProv : List ProvenanceItem :=
        newItem0.prov.map (fun p => { page_no := p.page_no + delta })
      let newItem1 :=
        if newItem0.isDocItem then { newItem0 with prov := shiftedProv }
        else newItem0
      match item.parent with
      | none => .ok (st.setList k (st.getList k ++ [newItem1]), map1)
      | some pref =>
          match refMapGet map1 pref with
          | none => .error "KeyError: parent not indexed yet"
          | some newParentCref =>
              let newItem2 := { newItem1 with parent := some newParentCref }
              let st1 := st.setList k (st.getList k ++ [newItem2])
              match newParentCref with
              | Ref.item pk pi =>
                  match pyGet (st1.getList pk) pi with
                  | none => .error "IndexError: parent slot"
                  | some parentItem =>
                      let p1 :=
                        if parentItem.isFloatingItem then
                          { parentItem with captions :=
                              replaceFirstRef item.self_ref newCref parentItem.captions }
                        else parentItem
                      let p2 :=
                        match p1.variant with
                        | NodeVariant.table data =>
                            let cells' :=
                              replaceFirstRichCell item.self_ref newCref data.table_cells
                            let data' : TableData := { data with table_cells := cells' }
                            { p1 with variant := NodeVariant.table data' }
                        | _ => p1
                      let p3 := { p2 with children := p2.children ++ [newCref] }
                      match pySet (st1.getList pk) pi p3 with
                      | some l => .ok (st1.setList pk l, map1)
                      | none => .error "IndexError: parent slot write"
              | Ref.body =>
                  match st1.bodyOpt with
                  | some b =>
                      let b' : Node := { b with children := b.children ++ [newCref] }
                      .ok ({ st1 with bodyOpt := some b' }, map1)
                  | none => .error "body buffer is None"
              | Ref.hash => .error "RuntimeError: unsupported ref format"

/-- Fold `indexOneItem` over the traversal of one source document. -/
def foldIndexItems (delta : Int) :
    DocIndex → List (Ref × Ref) → List Node →
    Except String (DocIndex × List (Ref × Ref))
  | st, map, [] => .ok (st, map)
  | st, map, it :: rest =>
      match indexOneItem st map it delta with
      | .error e => .error e
      | .ok (st', map') => foldIndexItems delta st' map' rest

/-- `min(doc.pages.keys())` (only called on a non-empty registry). -/
def minKeys (l : List (Int × PageItem)) : Int :=
  match l with
  | [] => 0
  | e :: rest => rest.foldl (fun m x => if x.1 < m then x.1 else m) e.1

/-- The page-update loop of `_DocIndex.index`: copy every page shifted by
`delta` into the buffer registry and track the largest new page number. -/
def indexPages (st : DocIndex) (docPages : List (Int × PageItem))
    (delta : Int) : DocIndex :=
  let res := docPages.foldl
    (fun (acc : List (Int × PageItem) × Option Int) e =>
      let newNr := e.1 + delta
      (pagesInsert newNr { page_no := newNr } acc.1,
       match acc.2 with
       | none => some newNr
       | some m => if newNr > m then some newNr else some m))
    (st.pages, none)
  { st with pages := res.1,
            maxPage := match res.2 with
                       | none => st.maxPage
                       | some m => m }

/-- `_DocIndex.index`: register one document into the merge buffer. -/
def DocIndex.index (st : DocIndex) (fuel : Nat) (doc : DoclingDocument) :
    Except String DocIndex := do
  let delta : Int :=
    if doc.pages.isEmpty then 0 else st.maxPage - minKeys doc.pages + 1
  let st := if st.bodyOpt.isNone then
      { st with bodyOpt := some { doc.body with children := [] } }
    else st
  let st := { st with names := st.names ++ [doc.name] }
  let items ← iterateWithStack doc true true none allLayers fuel doc.body []
  match foldIndexItems delta st [] (items.map (fun it => it.1)) with
  | .error e => .error e
  | .ok (st1, _) => .ok (indexPages st1 doc.pages delta)

/-- `DoclingDocument._update_from_index`. -/
def DoclingDocument.updateFromIndex (d : DoclingDocument) (di : DocIndex) :
    DoclingDocument :=
  { d with
    body := di.bodyOpt.getD d.body
    groups := di.groups
    texts := di.texts
    pictures := di.pictures
    tables := di.tables
    key_value_items := di.key_value_items
    form_items := di.form_items
    pages := di.pages
    name := String.intercalate " + " di.names }

/-- `DoclingDocument.concatenate`. -/
def DoclingDocument.concatenate (fuel : Nat) (docs : List DoclingDocument) :
    Except String DoclingDocument := do
  let di ← docs.foldlM (fun st doc => st.index fuel doc) DocIndex.empty
  let res := DoclingDocument.empty
    (String.intercalate " + " (docs.map (fun doc => doc.name)))
  .ok (res.updateFromIndex di)

end Docling

namespace Docling

/-! Concrete documents used by the claim theorems.  Each is built through
the public construction operations of the embedding; the `*Build` value
retains the `Except` result so the theorems can assert the construction
succeeded. -/

/-- A fresh `TextItem` value as a caller constructs one before
`append_child_item` (placeholder self reference `"#"`). -/
def freshText (t : String) (tk : TextKind) (lbl : DocItemLabel) : Node :=
  { self_ref := Ref.hash
    parent := none
    children := []
    content_layer := ContentLayer.body
    variant := NodeVariant.text tk
      { label := lbl, text := t, orig := t, enumerated := false,
        marker := "", level := 0 }
    prov := [], captions := [], references := [], footnotes := [] }

/-- An empty table payload. -/
def emptyTableData : TableData := { table_cells := [], num_rows := 0, num_cols := 0 }

/-- A plain 1x1-span table cell at the given row/column offsets. -/
def plainCell (r c : Nat) : TableCell :=
  { row_span := 1, col_span := 1, start_row_offset_idx := r,
    end_row_offset_idx := r + 1, start_col_offset_idx := c,
    end_col_offset_idx := c + 1, text := "x", column_header := false,
    row_header := false, row_section := false, rich := none }

/-- The rich cells of the first table of a document (for stating what the
renumbering did to them). -/
def firstTableRichRefs (d : DoclingDocument) : List (Option Ref) :=
  match (Ref.item CollKind.tables 0).resolve d with
  | some t =>
      match t.variant with
      | NodeVariant.table data => data.table_cells.map (fun c => c.rich)
      | _ => []
  | none => []

/-- The caption list of the first table of a document. -/
def firstTableCaptions (d : DoclingDocument) : List Ref :=
  match (Ref.item CollKind.tables 0).resolve d with
  | some t => t.captions
  | none => []

/-- The texts yielded by a default `iterate_items` traversal, with levels. -/
def iterTextsOf (d : DoclingDocument) : Except String (List (String × Nat)) := do
  let l ← d.iterateItems 30 none false false none none
  .ok (l.map (fun it =>
    (match it.1.variant with
     | NodeVariant.text _ p => p.text
     | _ => "", it.2)))

/-- C1 failing input: a document with a filler text under the body and a
table owning a rich cell whose referenced text is a child of the table. -/
def c1Build : Except String DoclingDocument := do
  let d0 := DoclingDocument.empty "c1"
  let r1 ← d0.addText DocItemLabel.text "other" none none none none
  let r2 ← r1.1.addTable emptyTableData none none none none
  let d2 := r2.1
  let some tbl := (Ref.item CollKind.tables 0).resolve d2
    | .error "table not found"
  let ap := d2.appendChildItem 30 (freshText "rich" TextKind.plain DocItemLabel.text) (some tbl)
  match ap.2 with
  | some e => .error e
  | none =>
      let richCell : TableCell :=
        { plainCell 0 0 with rich := some (Ref.item CollKind.texts 1) }
      ap.1.addTableCell (Ref.item CollKind.tables 0) richCell

/-- The C1 document before the deletion. -/
def c1Before : DoclingDocument := c1Build.toOption.getD (DoclingDocument.empty "x")

/-- The live node for the rich-cell target text `#/texts/1`. -/
def c1RichNode : Node := ((Ref.item CollKind.texts 1).resolve c1Before).getD mkBody

/-- The C1 document after `delete_items([#/texts/1])`. -/
def c1After : DoclingDocument := (c1Before.delete_items 30 [c1RichNode]).1

/-- C2 failing input: a group sibling under the body contains the caption
text of a surviving sibling table. -/
def c2Build : Except String DoclingDocument := do
  let d0 := DoclingDocument.empty "c2"
  let r1 ← d0.addGroup none none none none
  let some g := (Ref.item CollKind.groups 0).resolve r1.1 | .error "group not found"
  let r2 ← r1.1.addText DocItemLabel.caption "cap" none none (some g) none
  let r3 ← r2.1.addTable emptyTableData (some (Ref.item CollKind.texts 0)) none none none
  .ok r3.1

/-- The C2 document before the deletion. -/
def c2Before : DoclingDocument := c2Build.toOption.getD (DoclingDocument.empty "x")

/-- The live node of the group sibling `#/groups/0`. -/
def c2GroupNode : Node := ((Ref.item CollKind.groups 0).resolve c2Before).getD mkBody

/-- The C2 document after `delete_items([#/groups/0])`. -/
def c2After : DoclingDocument := (c2Before.delete_items 30 [c2GroupNode]).1

/-- The two-text document of the C2 scenario. -/
def c2ScenBuild : Except String DoclingDocument := do
  let d0 := DoclingDocument.empty "scen"
  let r1 ← d0.addText DocItemLabel.text "hello" none none none none
  let r2 ← r1.1.addText DocItemLabel.text "world" none none none none
  .ok r2.1

/-- The two-text scenario document. -/
def c2ScenDoc : DoclingDocument := c2ScenBuild.toOption.getD (DoclingDocument.empty "x")

/-- The live node of `t1 = #/texts/0` in the scenario document. -/
def c2ScenT1 : Node := ((Ref.item CollKind.texts 0).resolve c2ScenDoc).getD mkBody

/-- The scenario document after `delete_items([t1])`. -/
def c2ScenAfter : DoclingDocument := (c2ScenDoc.delete_items 30 [c2ScenT1]).1

/-- C3 witness input: `U` is an orphan root (no parent, not reachable from
the body) with child `T`; the upward stack computation for `T` succeeds,
but linking from the body root fails, exercising the rollback branch. -/
def c3T : Node :=
  { self_ref := Ref.item CollKind.texts 0
    parent := some (Ref.item CollKind.texts 1)
    children := []
    content_layer := ContentLayer.body
    variant := NodeVariant.text TextKind.plain
      { label := DocItemLabel.text, text := "T", orig := "T",
        enumerated := false, marker := "", level := 0 }
    prov := [], captions := [], references := [], footnotes := [] }

/-- The orphan root of the C3 witness document. -/
def c3U : Node :=
  { self_ref := Ref.item CollKind.texts 1
    parent := none
    children := [Ref.item CollKind.texts 0]
    content_layer := ContentLayer.body
    variant := NodeVariant.text TextKind.plain
      { label := DocItemLabel.text, text := "U", orig := "U",
        enumerated := false, marker := "", level := 0 }
    prov := [], captions := [], references := [], footnotes := [] }

/-- The C3 witness document. -/
def c3Doc : DoclingDocument :=
  { DoclingDocument.empty "c3" with texts := [c3T, c3U] }

/-- The fresh child appended in the C3 witness. -/
def c3Child : Node := freshText "C" TextKind.plain DocItemLabel.text

/-- C4 scenario input: a document with pages `{1, 2}` and one text per
page. -/
def c4DocA : DoclingDocument :=
  let d0 := DoclingDocument.empty "A"
  let d1 := ((d0.addText DocItemLabel.text "a1" none (some { page_no := 1 }) none none).toOption.map
    (fun r => r.1)).getD d0
  let d2 := ((d1.addText DocItemLabel.text "a2" none (some { page_no := 2 }) none none).toOption.map
    (fun r => r.1)).getD d1
  (d2.addPage 1).addPage 2

/-- The second C4 scenario document, also with pages `{1, 2}`. -/
def c4DocB : DoclingDocument :=
  let d0 := DoclingDocument.empty "B"
  let d1 := ((d0.addText DocItemLabel.text "b1" none (some { page_no := 1 }) none none).toOption.map
    (fun r => r.1)).getD d0
  let d2 := ((d1.addText DocItemLabel.text "b2" none (some { page_no := 2 }) none none).toOption.map
    (fun r => r.1)).getD d1
  (d2.addPage 1).addPage 2

/-- The concatenation of the two C4 scenario documents. -/
def c4ScenRes : DoclingDocument :=
  (DoclingDocument.concatenate 30 [c4DocA, c4DocB]).toOption.getD (DoclingDocument.empty "x")

/-- C4 counterexample input: a one-page document with page `{1}`. -/
def c4DocX : DoclingDocument := (DoclingDocument.empty "X").addPage 1

/-- C4 counterexample input: a one-page document with page `{2}`. -/
def c4DocY : DoclingDocument := (DoclingDocument.empty "Y").addPage 2

/-- The concatenation of the counterexample documents. -/
def c4CexRes : DoclingDocument :=
  (DoclingDocument.concatenate 30 [c4DocX, c4DocY]).toOption.getD (DoclingDocument.empty "x")

/-- C5 inputs: a group under the body with one text child. -/
def c5Build : Except String DoclingDocument := do
  let d0 := DoclingDocument.empty "c5"
  let r1 ← d0.addGroup none none none none
  let some g := (Ref.item CollKind.groups 0).resolve r1.1 | .error "group not found"
  let r2 ← r1.1.addText DocItemLabel.text "kid" none none (some g) none
  .ok r2.1

/-- The C5 document. -/
def c5Doc : DoclingDocument := c5Build.toOption.getD (DoclingDocument.empty "x")

/-- The unreachable reference requested in the C5 counterexample. -/
def c5Bogus : Ref := Ref.item CollKind.texts 99

/-- The C5 counterexample run: the unreachable reference is masked by the
descendant of the group. -/
def c5CexRun : DoclingDocument × Option String :=
  c5Doc.deleteItemsCore 30 [Ref.item CollKind.groups 0, c5Bogus]

/-- C6 source document: a plain group holding a `ListItem`, produced by
public operations (`add_group` + `append_child_item`). -/
def c6SrcBuild : Except String DoclingDocument := do
  let d0 := DoclingDocument.empty "src"
  let r1 ← d0.addGroup none none none none
  let some g := (Ref.item CollKind.groups 0).resolve r1.1 | .error "group not found"
  let ap := r1.1.appendChildItem 30 (freshText "li" TextKind.listItem DocItemLabel.list_item) (some g)
  match ap.2 with
  | some e => .error e
  | none => .ok ap.1

/-- The C6 source document. -/
def c6Src : DoclingDocument := c6SrcBuild.toOption.getD (DoclingDocument.empty "x")

/-- The live group node of the C6 source document. -/
def c6SrcGroup : Node := ((Ref.item CollKind.groups 0).resolve c6Src).getD mkBody

/-- The C6 counterexample run: `add_node_items` with the group (whose
child is a `ListItem`) under the body of a fresh document. -/
def c6CexRun : DoclingDocument × Option String :=
  (DoclingDocument.empty "dst").addNodeItems 30 [c6SrcGroup] c6Src none

/-- A detached `ListItem` value (used to exercise the rejection paths). -/
def c6DetachedLi : Node := freshText "li" TextKind.listItem DocItemLabel.list_item

/-- C7 input: the 2x2 table data built via `add_table`. -/
def c7Data : TableData :=
  { table_cells := [plainCell 0 0, plainCell 0 1, plainCell 1 0, plainCell 1 1],
    num_rows := 2, num_cols := 2 }

/-- The C7 document holding the table. -/
def c7Doc : DoclingDocument :=
  ((DoclingDocument.empty "c7").addTable c7Data none none none none).toOption.map
    (fun r => r.1) |>.getD (DoclingDocument.empty "c7")

/-- The table data of the table inside the C7 document. -/
def c7DataInDoc : TableData :=
  match ((Ref.item CollKind.tables 0).resolve c7Doc).getD mkBody |>.variant with
  | NodeVariant.table data => data
  | _ => emptyTableData

/-- The C7 run: `remove_row(0)` on the table data. -/
def c7Run :
    Except String ((TableData × Option DoclingDocument) × List TableCell) :=
  c7DataInDoc.removeRow 0 none 30

end Docling

namespace Docling

/-- The page-number shift `_DocIndex.index` applies to one document:
`running max − min(doc pages) + 1`, or `0` for a pageless document. -/
def shiftDelta (mp : Int) (docPages : List (Int × PageItem)) : Int :=
  if docPages.isEmpty then 0 else mp - minKeys docPages + 1

/-- `max` over the keys of a page registry (`0` if empty). -/
def maxKeys (l : List (Int × PageItem)) : Int :=
  match l with
  | [] => 0
  | e :: rest => rest.foldl (fun m x => if x.1 < m then m else x.1) e.1

/-- The page numbers `concatenate` assigns, document by document: each
input document's pages are offset by `shiftDelta` of the running maximum,
which then advances to the document's shifted maximum. -/
def concatKeysSpec (mp : Int) : List DoclingDocument → List Int
  | [] => []
  | doc :: rest =>
      let delta := shiftDelta mp doc.pages
      doc.pages.map (fun e => e.1 + delta) ++
        concatKeysSpec
          (if doc.pages.isEmpty then mp else maxKeys doc.pages + delta) rest

/-- C5 witness input: a single text under the body. -/
def c5wBuild : Except String DoclingDocument := do
  let d0 := DoclingDocument.empty "c5w"
  let r1 ← d0.addText DocItemLabel.text "solo" none none none none
  .ok r1.1

/-- The C5 witness document. -/
def c5wDoc : DoclingDocument := c5wBuild.toOption.getD (DoclingDocument.empty "x")

end Docling

namespace Docling

/-- The `ListGroup` node `add_list_group` constructs for a document. -/
def mkListGroupNode (d : DoclingDocument) (nm : Option String)
    (pOpt : Option Node) (cl : Option ContentLayer) : Node :=
  { self_ref := Ref.item CollKind.groups d.groups.length
    parent := some (pOpt.getD d.body).get_ref
    children := []
    content_layer := cl.getD ContentLayer.body
    variant := NodeVariant.group GroupKind.listGroup (nm.getD "group")
    prov := [], captions := [], references := [], footnotes := [] }

/-- One step of the page-copy fold inside `_DocIndex.index`. -/
def pageStep (delta : Int) (acc : List (Int × PageItem) × Option Int)
    (e : Int × PageItem) : List (Int × PageItem) × Option Int :=
  let newNr := e.1 + delta
  (pagesInsert newNr { page_no := newNr } acc.1,
   match acc.2 with
   | none => some newNr
   | some m => if newNr > m then some newNr else some m)

/-- The running-maximum component of the page-copy fold on its own. -/
def pageMaxStep (delta : Int) (o : Option Int) (e : Int × PageItem) :
    Option Int :=
  match o with
  | none => some (e.1 + delta)
  | some m => if e.1 + delta > m then some (e.1 + delta) else some m

/-! Theorems -/

/-- C10: calling `delete_items` with an empty list of node items is a
complete no-op — the returned document is the input document itself
(every flat collection, the body tree and the page registry unchanged)
and no error is raised. -/
theorem c10_delete_items_empty_noop (fuel : Nat) (d : DoclingDocument) :
    d.delete_items fuel [] = (d, none) := rfl

/-- C7 counterexample: on the 2x2 table built via `add_table`,
`remove_row(0)` leaves both remaining cells with `end_row_offset_idx = 1`
(row end offsets are exclusive), not `0` as the claim states, so the
claim is false at this input. -/
theorem c7_end_row_offset_counterexample :
    (c7Run.toOption.map (fun r =>
      r.1.1.table_cells.map (fun c => c.end_row_offset_idx))) = some [1, 1] ∧
    (c7Run.toOption.map (fun r =>
      r.1.1.table_cells.map (fun c => c.end_row_offset_idx))) ≠ some [0, 0] := by
  exact ⟨rfl, by decide⟩

/-- C7 (amended): on the 2x2 table built via `add_table`, `remove_row(0)`
succeeds, the resulting table data has `num_rows = 1`, and each of the
two remaining cells has `start_row_offset_idx = 0` and
`end_row_offset_idx = 1`. -/
theorem c7_remove_row_scenario :
    c7Doc.tables.length = 1 ∧
    c7DataInDoc = c7Data ∧
    (c7Run.toOption.map (fun r => r.1.1.num_rows)) = some 1 ∧
    (c7Run.toOption.map (fun r =>
      r.1.1.table_cells.map (fun c => (c.start_row_offset_idx, c.end_row_offset_idx))))
      = some [(0, 1), (0, 1)] ∧
    (c7Run.toOption.map (fun r => r.2.length)) = some 2 := by
  exact ⟨rfl, rfl, rfl, rfl, rfl⟩

/-- C8: the version gate of the source compares the minor components as
strings, so `"1.10.0"` is accepted against SDK version `"1.6.0"`
(`"10" < "6"` lexicographically) although its numeric minor exceeds the
SDK minor — the claim (and the spec) says it must be rejected.  The last
conjuncts confirm the gate otherwise behaves as claimed on same-major,
smaller-minor, other-major and non-matching versions. -/
theorem c8_version_minor_string_comparison :
    CURRENT_VERSION = "1.6.0" ∧
    parseVersionTriple "1.10.0" = some ("1", "10", "0") ∧
    checkVersionIsCompatible "1.10.0" = true ∧
    specVersionCompatible "1.10.0" = false ∧
    (10 : Nat) > 6 ∧
    checkVersionIsCompatible "1.5.0" = true ∧
    checkVersionIsCompatible "1.6.0" = true ∧
    checkVersionIsCompatible "2.0.0" = false ∧
    checkVersionIsCompatible "0.6.0" = false ∧
    checkVersionIsCompatible "1.7.0" = false ∧
    checkVersionIsCompatible "not-a-version" = false := by
  refine ⟨rfl, rfl, rfl, rfl, ?_, rfl, rfl, rfl, rfl, rfl, rfl⟩
  norm_num

end Docling

namespace Docling

/-- C1: on a document (built by public operations) holding a filler text
`#/texts/0` under the body and a table whose rich cell references its
child text `#/texts/1`, `validate_tree(body)` holds; `delete_items` of the
rich-cell target raises no error, but the renumbering pass shifts the rich
cell's reference onto the unrelated surviving text `#/texts/0` (whose
parent is the body), so `validate_tree(body)` returns `False` afterwards —
the public mutation broke the invariant the claim says is preserved. -/
theorem c1_delete_rich_cell_target_breaks_validate_tree :
    c1Build = Except.ok c1Before ∧
    c1Before.validateTree 30 c1Before.body = Except.ok true ∧
    (c1Before.delete_items 30 [c1RichNode]).2 = none ∧
    firstTableRichRefs c1Before = [some (Ref.item CollKind.texts 1)] ∧
    firstTableRichRefs c1After = [some (Ref.item CollKind.texts 0)] ∧
    c1After.validateTree 30 c1After.body = Except.ok false :=
  ⟨rfl, rfl, rfl, rfl, rfl, rfl⟩

/-- C2: deleting the group sibling `#/groups/0` (which contains the
caption text of the surviving sibling table) succeeds, but the table's
caption reference is renumbered to the dangling index `-1` of `texts` instead of
being dropped, so a dangling reference remains in the document,
contradicting the claim.  The last conjuncts confirm the claim's two-text
scenario itself: after `delete_items([t1])` iteration yields only
`"world"` and the survivor's `self_ref` is `#/texts/0`. -/
theorem c2_caption_dangles_after_descendant_delete :
    c2Build = Except.ok c2Before ∧
    c2Before.validateTree 30 c2Before.body = Except.ok true ∧
    firstTableCaptions c2Before = [Ref.item CollKind.texts 0] ∧
    (c2Before.delete_items 30 [c2GroupNode]).2 = none ∧
    firstTableCaptions c2After = [Ref.item CollKind.texts (-1)] ∧
    (Ref.item CollKind.texts (-1)).resolve c2After = none ∧
    c2ScenBuild = Except.ok c2ScenDoc ∧
    (c2ScenDoc.delete_items 30 [c2ScenT1]).2 = none ∧
    iterTextsOf c2ScenAfter = Except.ok [("world", 1)] ∧
    c2ScenAfter.texts.map Node.self_ref = [Ref.item CollKind.texts 0] :=
  ⟨rfl, rfl, rfl, rfl, rfl, rfl, rfl, rfl, rfl, rfl⟩

/-- C4 counterexample: concatenating a document with pages `{1}` and one
with pages `{2}` yields pages `{1, 2}` — the second document's page is
offset by `0` (`running max − min + 1 = 1 − 2 + 1`), not by the running
maximum `1` as the claim states (which would yield page `3`). -/
theorem c4_running_max_offset_counterexample :
    DoclingDocument.concatenate 30 [c4DocX, c4DocY] = Except.ok c4CexRes ∧
    c4DocX.pages.map Prod.fst = [1] ∧
    c4DocY.pages.map Prod.fst = [2] ∧
    c4CexRes.pages.map Prod.fst = [1, 2] ∧
    c4CexRes.pages.map Prod.fst ≠ [1, 3] := by
  exact ⟨rfl, rfl, rfl, rfl, by decide⟩

/-- C5 counterexample: the document holds a group `#/groups/0` with one
text child; requesting deletion of the group together with the
unreachable `#/texts/99` does **not** fail — the recorded mappings
(group and its descendant) number two, matching the two requested refs,
so the check passes and the deletion is performed. -/
theorem c5_unreachable_ref_masked_by_descendant :
    c5Build = Except.ok c5Doc ∧
    c5Bogus.resolve c5Doc = none ∧
    c5Doc.groups.length = 1 ∧
    c5CexRun.2 = none ∧
    c5CexRun.1.groups = [] ∧
    c5CexRun.1.texts = [] :=
  ⟨rfl, rfl, rfl, rfl, rfl, rfl⟩

/-- C6 counterexample: the source document (built with `add_group` and
`append_child_item`) holds a `ListItem` inside a plain group;
`add_node_items` of that group into a fresh document raises no error and
copies the nested `ListItem` under the copied plain group, leaving a
`ListItem` whose parent does not resolve to a `ListGroup` — so the
blanket sentence of the claim fails (the check only inspects directly
supplied items). -/
theorem c6_nested_list_item_escapes_check :
    c6SrcBuild = Except.ok c6Src ∧
    c6CexRun.2 = none ∧
    (c6CexRun.1.texts.map (fun t => (t.isListItem, t.parent)))
      = [(true, some (Ref.item CollKind.groups 0))] ∧
    ((Ref.item CollKind.groups 0).resolve c6CexRun.1).map Node.isListGroup
      = some false ∧
    ((Ref.item CollKind.groups 0).resolve c6CexRun.1).map Node.isGroupItem
      = some true :=
  ⟨rfl, rfl, rfl, rfl, rfl⟩

end Docling

namespace Docling

/-- Reading a collection after writing one. -/
theorem getList_setList (d : DoclingDocument) (k k' : CollKind) (l : List Node) :
    (d.setList k l).getList k' = if k = k' then l else d.getList k' := by
  cases k <;> cases k' <;> simp [DoclingDocument.setList, DoclingDocument.getList]

/-- Writing a collection back to itself is the identity. -/
theorem setList_getList_self (d : DoclingDocument) (k : CollKind) :
    d.setList k (d.getList k) = d := by
  cases k <;> rfl

/-- Consecutive writes to the same collection collapse. -/
theorem setList_setList (d : DoclingDocument) (k : CollKind) (l l' : List Node) :
    (d.setList k l).setList k l' = d.setList k l' := by
  cases k <;> rfl

/-- Erasing the appended last element restores the list. -/
theorem eraseIdx_concat {α : Type} (l : List α) (x : α) :
    (l ++ [x]).eraseIdx l.length = l := by
  induction l with
  | nil => rfl
  | cons a rest ih => simpa [List.eraseIdx] using ih

/-- Popping immediately after `_append_item` restores the document
exactly: the appended item is the last of its collection, so `_pop_item`
succeeds and removes precisely it. -/
theorem popItem_appendItem (d : DoclingDocument) (child : Node) (pref : Ref) :
    ((d.appendItem child pref).1).popItem (d.appendItem child pref).2.1 =
      .ok d := by
  unfold DoclingDocument.appendItem DoclingDocument.popItem
  simp only [getList_setList, eq_self_iff_true, if_true]
  have hlen : ((d.getList (collKindOf child.variant) ++
      [{ child with
          self_ref := Ref.item (collKindOf child.variant)
            ((d.getList (collKindOf child.variant)).length : Int),
          parent := some pref }]).length : Int)
      = ((d.getList (collKindOf child.variant)).length : Int) + 1 := by
    simp
  rw [if_pos hlen]
  unfold pyDelete
  have h0 : (0 : Int) ≤ ((d.getList (collKindOf child.variant)).length : Int) := by
    positivity
  rw [if_pos h0]
  simp only [Int.toNat_natCast, List.length_append, List.length_cons,
    List.length_nil]
  rw [if_pos (by omega)]
  rw [eraseIdx_concat]
  simp only [setList_setList, setList_getList_self]

/-- C5 (amended): `delete_items` fails with an error — and deletes
nothing, the document returned is the input — whenever fewer
path-to-ref mappings were recorded during the full traversal (each
requested ref and each descendant of a requested ref) than references
were requested.  (The counterexample shows the converse direction of the
original claim fails: an unreachable ref alone need not trigger this.) -/
theorem c5_delete_fails_when_mappings_fewer
    (fuel : Nat) (d : DoclingDocument) (refs : List Ref)
    (tbd : List (List Nat × Ref))
    (hne : refs ≠ [])
    (h : toBeDeletedItems d fuel refs = .ok tbd)
    (hlt : tbd.length < refs.length) :
    d.deleteItemsCore fuel refs =
      (d, some "Cannot find all provided RefItems in doc") := by
  have hE : refs.isEmpty = false := by
    cases refs with
    | nil => exact absurd rfl hne
    | cons a l => rfl
  unfold DoclingDocument.deleteItemsCore
  rw [hE, h]
  simp [hlt]

/-- C5 witness: on the one-text document, requesting the unreachable
`#/texts/5`-style ref together with the text records one mapping for two
requested refs, so the deletion fails and the document is untouched. -/
theorem c5_delete_fails_witness :
    c5wDoc.deleteItemsCore 30 [c5Bogus, Ref.item CollKind.texts 0] =
      (c5wDoc, some "Cannot find all provided RefItems in doc") := by
  exact c5_delete_fails_when_mappings_fewer 30 c5wDoc _
    [([0], Ref.item CollKind.texts 0)] (by decide) (by rfl) (by decide)

/-- C3: `append_child_item` raises when the child already has children;
when the flat-collection append succeeded but `_add_child` reported
failure, the engine pops the appended item, returning the document
exactly as it was before the call; and `_pop_item` succeeds only on the
last element of its collection, raising otherwise. -/
theorem c3_append_rollback (fuel : Nat) (d : DoclingDocument)
    (child : Node) (parent : Option Node) :
    (child.children ≠ [] →
      d.appendChildItem fuel child parent =
        (d, some "Can not append a child with children")) ∧
    (∀ stack, child.children = [] →
      d.getStackOfItem fuel (parent.getD d.body) = .ok (true, stack) →
      (d.appendItem child (parent.getD d.body).get_ref).1.body.addChild
          (d.appendItem child (parent.getD d.body).get_ref).1 Ref.body stack
          (d.appendItem child (parent.getD d.body).get_ref).2.2
        = .ok (false, (d.appendItem child (parent.getD d.body).get_ref).1) →
      d.appendChildItem fuel child parent =
        (d, some "Could not append child")) ∧
    (∀ item d', d.popItem item = .ok d' →
      ∃ k i, item.self_ref = Ref.item k i ∧
        ((d.getList k).length : Int) = i + 1) ∧
    (∀ item k i, item.self_ref = Ref.item k i →
      ((d.getList k).length : Int) ≠ i + 1 →
      d.popItem item = .error "Failed to pop: item is not last") := by
  refine ⟨?_, ?_, ?_, ?_⟩
  · intro h
    unfold DoclingDocument.appendChildItem
    rw [if_pos h]
  · intro stack hch hstack hadd
    unfold DoclingDocument.appendChildItem
    rw [if_neg (by simp [hch])]
    dsimp only
    rw [hstack]
    dsimp only
    rw [hadd]
    dsimp only
    rw [popItem_appendItem]
  · intro item d' h
    unfold DoclingDocument.popItem at h
    cases hs : item.self_ref with
    | hash => rw [hs] at h; simp at h
    | body => rw [hs] at h; simp at h
    | item k i =>
        rw [hs] at h
        dsimp only at h
        by_cases hc : ((d.getList k).length : Int) = i + 1
        · exact ⟨k, i, rfl, hc⟩
        · rw [if_neg hc] at h; simp at h
  · intro item k i hs hne
    unfold DoclingDocument.popItem
    rw [hs]
    dsimp only
    rw [if_neg hne]

/-- C3 witness: on the orphan-chain document, appending a child with
children raises untouched; appending a fresh child under `T` finds the
stack `[0]` upwards but the downward link from the body fails, and the
document comes back exactly equal after the rollback; popping the
non-last `T` raises. -/
theorem c3_append_rollback_witness :
    c3Doc.appendChildItem 30 c3U (some c3T) =
      (c3Doc, some "Can not append a child with children") ∧
    c3Doc.appendChildItem 30 c3Child (some c3T) =
      (c3Doc, some "Could not append child") ∧
    c3Doc.popItem c3T = .error "Failed to pop: item is not last" := by
  refine ⟨(c3_append_rollback 30 c3Doc c3U (some c3T)).1 (by decide),
          (c3_append_rollback 30 c3Doc c3Child (some c3T)).2.1 [0] rfl rfl rfl,
          (c3_append_rollback 30 c3Doc c3T (some c3T)).2.2.2 c3T
            CollKind.texts 0 rfl (by decide)⟩

end Docling

namespace Docling

/-- `setList` leaves the body root untouched. -/
theorem setList_body (d : DoclingDocument) (k : CollKind) (l : List Node) :
    (d.setList k l).body = d.body := by
  cases k <;> rfl

/-- Writing the body slot leaves every collection untouched. -/
theorem setNode_body_getList (d : DoclingDocument) (n : Node) (k : CollKind) :
    (d.setNode Ref.body n).getList k = d.getList k := by
  cases k <;> rfl

/-- Writing a collection slot leaves the other collections untouched. -/
theorem setNode_item_getList_ne (d : DoclingDocument) (kk : CollKind) (i : Int)
    (n : Node) (k : CollKind) (h : kk ≠ k) :
    (d.setNode (Ref.item kk i) n).getList k = d.getList k := by
  unfold DoclingDocument.setNode
  dsimp only
  cases hv : pySet (d.getList kk) i n with
  | none => rfl
  | some l => simp [getList_setList, h]

/-- Writing a valid collection slot updates exactly that position. -/
theorem setNode_item_getList_same (d : DoclingDocument) (kk : CollKind)
    (i : Int) (n : Node) (h0 : 0 ≤ i) (hlt : i.toNat < (d.getList kk).length) :
    (d.setNode (Ref.item kk i) n).getList kk = (d.getList kk).set i.toNat n := by
  unfold DoclingDocument.setNode pySet
  dsimp only
  rw [if_pos h0, if_pos hlt]
  simp [getList_setList]

/-- Writing a collection slot leaves the body root untouched. -/
theorem setNode_item_body (d : DoclingDocument) (kk : CollKind) (i : Int)
    (n : Node) : (d.setNode (Ref.item kk i) n).body = d.body := by
  unfold DoclingDocument.setNode
  dsimp only
  cases hv : pySet (d.getList kk) i n with
  | none => rfl
  | some l => simp [setList_body]

/-- A successful non-negative Python read is within bounds. -/
theorem pyGet_lt_length {α : Type} {l : List α} {i : Int} {x : α}
    (h0 : 0 ≤ i) (h : pyGet l i = some x) : i.toNat < l.length := by
  unfold pyGet at h
  rw [if_pos h0] at h
  obtain ⟨hl, _⟩ := List.getElem?_eq_some.mp h
  exact hl

/-- A successful non-negative read is stable under appending. -/
theorem pyGet_append_left {α : Type} {l l2 : List α} {i : Int} {x : α}
    (h0 : 0 ≤ i) (h : pyGet l i = some x) : pyGet (l ++ l2) i = some x := by
  have hlt := pyGet_lt_length h0 h
  unfold pyGet at h ⊢
  rw [if_pos h0] at h ⊢
  rw [List.getElem?_append, if_pos hlt]
  exact h

/-- Reading the appended last element. -/
theorem pyGet_concat_self {α : Type} (l : List α) (x : α) :
    pyGet (l ++ [x]) (l.length : Int) = some x := by
  unfold pyGet
  rw [if_pos (by positivity)]
  simp

/-- Reading beside a written position. -/
theorem pyGet_set_ne {α : Type} (l : List α) (m : Nat) (y : α) (j : Int)
    (h0 : 0 ≤ j) (h : m ≠ j.toNat) : pyGet (l.set m y) j = pyGet l j := by
  unfold pyGet
  rw [if_pos h0, if_pos h0, List.getElem?_set]
  simp [h]

/-- Reading a freshly written position. -/
theorem pyGet_set_self {α : Type} (l : List α) (m : Nat) (y : α)
    (h : m < l.length) : pyGet (l.set m y) (m : Int) = some y := by
  unfold pyGet
  rw [if_pos (by positivity)]
  rw [List.getElem?_set]
  simp [h]

end Docling
namespace Docling

/-- `add_list_group` appends a fresh `ListGroup` (linked under the given
live parent) at the end of the `groups` collection, without changing the
number of texts. -/
theorem addListGroup_spec (d : DoclingDocument) (nm : Option String)
    (pOpt : Option Node) (cl : Option ContentLayer) (pLive : Node)
    (hres : (pOpt.getD d.body).get_ref.resolve d = some pLive)
    (hcanon : ∀ k i, (pOpt.getD d.body).get_ref = Ref.item k i → 0 ≤ i) :
    ∃ d2, d.addListGroup nm pOpt cl = .ok (d2, mkListGroupNode d nm pOpt cl) ∧
      d2.texts.length = d.texts.length ∧
      pyGet (d2.getList CollKind.groups) ((d.groups.length : Int)) =
        some (mkListGroupNode d nm pOpt cl) := by
  unfold DoclingDocument.addListGroup DoclingDocument.linkUnderParent
  dsimp only [mkListGroupNode]
  cases hr : (pOpt.getD d.body).get_ref with
  | hash =>
      rw [hr] at hres
      simp [Ref.resolve] at hres
  | body =>
      dsimp only [Ref.resolve]
      refine ⟨_, rfl, rfl, ?_⟩
      exact pyGet_concat_self _ _
  | item kk i =>
      have h0 : 0 ≤ i := hcanon kk i hr
      rw [hr] at hres
      dsimp only [Ref.resolve] at hres ⊢
      have hlt := pyGet_lt_length h0 hres
      rw [getList_setList]
      by_cases hkk : CollKind.groups = kk
      · subst hkk
        rw [if_pos rfl]
        rw [pyGet_append_left h0 hres]
        refine ⟨_, rfl, ?_, ?_⟩
        · show ((_ : DoclingDocument).getList CollKind.texts).length = _
          rw [setNode_item_getList_ne _ _ _ _ _ (by decide),
              getList_setList]
          rfl
        · rw [setNode_item_getList_same _ _ _ _ h0
              (by rw [getList_setList, if_pos rfl]; simp; omega)]
          rw [getList_setList, if_pos rfl]
          rw [pyGet_set_ne _ _ _ _ (by positivity) (by rw [Int.toNat_natCast]; exact Nat.ne_of_lt hlt)]
          exact pyGet_concat_self _ _
      · rw [if_neg hkk, hres]
        refine ⟨_, rfl, ?_, ?_⟩
        · by_cases hkt : kk = CollKind.texts
          · subst hkt
            show ((_ : DoclingDocument).getList CollKind.texts).length = _
            rw [setNode_item_getList_same _ _ _ _ h0
                (by rw [getList_setList, if_neg hkk]; exact hlt)]
            rw [getList_setList, if_neg hkk]
            simp
            rfl
          · show ((_ : DoclingDocument).getList CollKind.texts).length = _
            rw [setNode_item_getList_ne _ _ _ _ _ hkt,
                getList_setList, if_neg (by decide)]
            rfl
        · rw [setNode_item_getList_ne _ _ _ _ _ (fun hk => hkk hk.symm),
              getList_setList, if_pos rfl]
          exact pyGet_concat_self _ _

/-- Linking an item under a live group both returns the item and leaves
the group reachable at its slot with the item appended to its children. -/
theorem linkUnderParent_groups_spec (d2 : DoclingDocument) (gN li : Node)
    (n : Int) (h0 : 0 ≤ n)
    (hgref : gN.get_ref = Ref.item CollKind.groups n)
    (hg : pyGet (d2.getList CollKind.groups) n = some gN) :
    d2.linkUnderParent li CollKind.texts (some gN) =
      .ok ((d2.setList CollKind.texts (d2.getList CollKind.texts ++ [li])).setNode
            (Ref.item CollKind.groups n)
            { gN with children := gN.children ++ [li.self_ref] }, li) ∧
    pyGet ((((d2.setList CollKind.texts (d2.getList CollKind.texts ++ [li])).setNode
            (Ref.item CollKind.groups n)
            { gN with children := gN.children ++ [li.self_ref] }).getList
              CollKind.groups)) n =
      some { gN with children := gN.children ++ [li.self_ref] } := by
  have hg3 : pyGet (((d2.setList CollKind.texts
      (d2.getList CollKind.texts ++ [li])).getList CollKind.groups)) n = some gN := by
    rw [getList_setList, if_neg (by decide)]
    exact hg
  have hlt3 : n.toNat < (((d2.setList CollKind.texts
      (d2.getList CollKind.texts ++ [li])).getList CollKind.groups)).length :=
    pyGet_lt_length h0 hg3
  constructor
  · unfold DoclingDocument.linkUnderParent
    dsimp only [Option.getD]
    rw [hgref]
    dsimp only [Ref.resolve]
    rw [hg3]
  · rw [setNode_item_getList_same _ _ _ _ h0 hlt3]
    have hn : n = ((n.toNat : Nat) : Int) := (Int.toNat_of_nonneg h0).symm
    rw [hn]
    simp only [Int.toNat_natCast]
    exact pyGet_set_self _ _ _ hlt3

/-- `add_list_item` with a parent that is not a `ListGroup` (or with no
parent) synthesizes a fresh `ListGroup` under that parent (the body when
absent) and places the new `ListItem` as its only child. -/
theorem addListItem_wraps (d : DoclingDocument) (text : String)
    (enumerated : Bool) (marker orig : Option String)
    (provOpt : Option ProvenanceItem) (pOpt : Option Node)
    (cl : Option ContentLayer) (pLive : Node)
    (hk : match pOpt with | some p => p.isListGroup = false | none => True)
    (hres : (pOpt.getD d.body).get_ref.resolve d = some pLive)
    (hcanon : ∀ k i, (pOpt.getD d.body).get_ref = Ref.item k i → 0 ≤ i) :
    ∃ pr, d.addListItem text enumerated marker orig provOpt pOpt cl = .ok pr ∧
      pr.2.isListItem = true ∧
      pr.2.self_ref = Ref.item CollKind.texts d.texts.length ∧
      pr.2.parent = some (Ref.item CollKind.groups d.groups.length) ∧
      ∃ g, (Ref.item CollKind.groups d.groups.length).resolve pr.1 = some g ∧
        g.isListGroup = true ∧
        g.parent = some (pOpt.getD d.body).get_ref ∧
        g.children = [Ref.item CollKind.texts d.texts.length] := by
  obtain ⟨d2, hALG, htl, hg⟩ := addListGroup_spec d none pOpt none pLive hres hcanon
  have hspec := linkUnderParent_groups_spec d2 (mkListGroupNode d none pOpt none)
    { self_ref := Ref.item CollKind.texts d2.texts.length
      parent := some (mkListGroupNode d none pOpt none).get_ref
      children := []
      content_layer := cl.getD ContentLayer.body
      variant := NodeVariant.text TextKind.listItem
        { label := DocItemLabel.list_item, text := text, orig := origOr orig text,
          enumerated := enumerated, marker := marker.getD "", level := 0 }
      prov := provOpt.toList
      captions := [], references := [], footnotes := [] }
    (d.groups.length : Int) (by positivity) rfl hg
  unfold DoclingDocument.addListItem
  cases pOpt with
  | none =>
      dsimp only
      rw [hALG]
      dsimp only [Bind.bind, Except.bind]
      refine ⟨_, hspec.1, rfl, ?_, rfl, ?_⟩
      · show Ref.item CollKind.texts (d2.texts.length : Int) = _
        rw [htl]
      · refine ⟨_, hspec.2, rfl, rfl, ?_⟩
        show [Ref.item CollKind.texts (d2.texts.length : Int)] = _
        rw [htl]
  | some p =>
      simp only at hk
      dsimp only
      simp only [hk, Bool.false_eq_true, if_false]
      rw [hALG]
      dsimp only [Bind.bind, Except.bind]
      refine ⟨_, hspec.1, rfl, ?_, rfl, ?_⟩
      · show Ref.item CollKind.texts (d2.texts.length : Int) = _
        rw [htl]
      · refine ⟨_, hspec.2, rfl, rfl, ?_⟩
        show [Ref.item CollKind.texts (d2.texts.length : Int)] = _
        rw [htl]

/-- C6 (amended): `add_list_item` called with a parent that is not a
`ListGroup` (including `None`) synthesizes a new `ListGroup` under that
parent and places the item in it, while `add_node_items` and
`insert_node_items` raise an error — before modifying the document —
when any *directly supplied* item is a `ListItem` and the destination
parent is not a `ListGroup`.  (The counterexample shows `ListItem`s
nested deeper inside supplied subtrees escape this check.) -/
theorem c6_list_item_parent_enforcement
    (d : DoclingDocument) (fuel : Nat) (text : String) (enumerated : Bool)
    (marker orig : Option String) (provOpt : Option ProvenanceItem)
    (cl : Option ContentLayer) (pOpt : Option Node) (pLive : Node)
    (items : List Node) (src : DoclingDocument) (sibling sp : Node)
    (after : Bool) :
    ((match pOpt with | some p => p.isListGroup = false | none => True) →
     (pOpt.getD d.body).get_ref.resolve d = some pLive →
     (∀ k i, (pOpt.getD d.body).get_ref = Ref.item k i → 0 ≤ i) →
     ∃ pr, d.addListItem text enumerated marker orig provOpt pOpt cl = .ok pr ∧
       pr.2.isListItem = true ∧
       pr.2.self_ref = Ref.item CollKind.texts d.texts.length ∧
       pr.2.parent = some (Ref.item CollKind.groups d.groups.length) ∧
       ∃ g, (Ref.item CollKind.groups d.groups.length).resolve pr.1 = some g ∧
         g.isListGroup = true ∧
         g.parent = some (pOpt.getD d.body).get_ref ∧
         g.children = [Ref.item CollKind.texts d.texts.length]) ∧
    ((pOpt.getD d.body).isListGroup = false →
     (∃ li ∈ items, li.isListItem = true) →
     d.addNodeItems fuel items src pOpt =
       (d, some "Cannot add ListItem into a non-ListGroup parent.")) ∧
    ((match sibling.parent with
      | some pr => pr.resolve d = some sp
      | none => sp = d.body) →
     sp.isListGroup = false →
     (∃ li ∈ items, li.isListItem = true) →
     d.insertNodeItems fuel sibling items src after =
       (d, some "Cannot insert ListItem into a non-ListGroup parent.")) := by
  refine ⟨?_, ?_, ?_⟩
  · intro hk hres hcanon
    exact addListItem_wraps d text enumerated marker orig provOpt pOpt cl pLive
      hk hres hcanon
  · intro hpl hex
    have hany : items.any Node.isListItem = true := by
      obtain ⟨li, hm, hl⟩ := hex
      exact List.any_eq_true.mpr ⟨li, hm, hl⟩
    unfold DoclingDocument.addNodeItems
    dsimp only
    rw [hpl, hany]
    rfl
  · intro hsp hpl hex
    have hany : items.any Node.isListItem = true := by
      obtain ⟨li, hm, hl⟩ := hex
      exact List.any_eq_true.mpr ⟨li, hm, hl⟩
    unfold DoclingDocument.insertNodeItems
    cases hsib : sibling.parent with
    | none =>
        rw [hsib] at hsp
        subst hsp
        dsimp only
        rw [hpl, hany]
        rfl
    | some pr =>
        rw [hsib] at hsp
        dsimp only
        rw [hsp]
        dsimp only
        rw [hpl, hany]
        rfl

/-- C6 witness: the three behaviors at concrete inputs — a fresh document
wraps a parentless `add_list_item` into a new `ListGroup`; `add_node_items`
and `insert_node_items` reject a directly supplied detached `ListItem`
under the body, leaving the document untouched. -/
theorem c6_list_item_parent_enforcement_witness :
    (∃ pr, (DoclingDocument.empty "w").addListItem "a" false none none none
        none none = .ok pr ∧
      pr.2.isListItem = true ∧
      pr.2.self_ref = Ref.item CollKind.texts
        (DoclingDocument.empty "w").texts.length ∧
      pr.2.parent = some (Ref.item CollKind.groups
        (DoclingDocument.empty "w").groups.length) ∧
      ∃ g, (Ref.item CollKind.groups
          (DoclingDocument.empty "w").groups.length).resolve pr.1 = some g ∧
        g.isListGroup = true ∧
        g.parent = some ((none : Option Node).getD
          (DoclingDocument.empty "w").body).get_ref ∧
        g.children = [Ref.item CollKind.texts
          (DoclingDocument.empty "w").texts.length]) ∧
    (DoclingDocument.empty "w").addNodeItems 30 [c6DetachedLi] c6Src none =
      (DoclingDocument.empty "w",
       some "Cannot add ListItem into a non-ListGroup parent.") ∧
    (DoclingDocument.empty "w").insertNodeItems 30 c6DetachedLi [c6DetachedLi]
        c6Src true =
      (DoclingDocument.empty "w",
       some "Cannot insert ListItem into a non-ListGroup parent.") := by
  refine ⟨?_, ?_, ?_⟩
  · exact (c6_list_item_parent_enforcement (DoclingDocument.empty "w") 30 "a"
      false none none none none none mkBody [] (DoclingDocument.empty "s")
      mkBody mkBody true).1 trivial rfl (fun k i h => by cases h)
  · exact (c6_list_item_parent_enforcement (DoclingDocument.empty "w") 30 "a"
      false none none none none none mkBody [c6DetachedLi] c6Src
      mkBody mkBody true).2.1 rfl ⟨c6DetachedLi, List.mem_singleton.mpr rfl, rfl⟩
  · exact (c6_list_item_parent_enforcement (DoclingDocument.empty "w") 30 "a"
      false none none none none none mkBody [c6DetachedLi] c6Src
      c6DetachedLi (DoclingDocument.empty "w").body true).2.2 rfl rfl
      ⟨c6DetachedLi, List.mem_singleton.mpr rfl, rfl⟩

/-- Replacing a node collection of the merge buffer leaves the page
registry untouched. -/
theorem DocIndex.setList_pages (st : DocIndex) (k : CollKind) (l : List Node) :
    (st.setList k l).pages = st.pages := by
  cases k <;> rfl

/-- Replacing a node collection of the merge buffer leaves the running
page maximum untouched. -/
theorem DocIndex.setList_maxPage (st : DocIndex) (k : CollKind) (l : List Node) :
    (st.setList k l).maxPage = st.maxPage := by
  cases k <;> rfl

/-- Indexing one item touches only the node collections and the body
buffer: pages and the running page maximum are unchanged. -/
theorem indexOneItem_preserves (st : DocIndex) (map : List (Ref × Ref))
    (item : Node) (delta : Int) (st' : DocIndex) (map' : List (Ref × Ref))
    (h : indexOneItem st map item delta = .ok (st', map')) :
    st'.pages = st.pages ∧ st'.maxPage = st.maxPage := by
  unfold indexOneItem at h
  split at h
  · simp at h
  · simp only [Except.ok.injEq, Prod.mk.injEq] at h
    obtain ⟨h1, _⟩ := h
    rw [← h1]
    exact ⟨rfl, rfl⟩
  · dsimp only at h
    split at h
    · simp only [Except.ok.injEq, Prod.mk.injEq] at h
      obtain ⟨h1, _⟩ := h
      rw [← h1]
      exact ⟨DocIndex.setList_pages _ _ _, DocIndex.setList_maxPage _ _ _⟩
    · split at h
      · simp at h
      · split at h
        · split at h
          · simp at h
          · split at h
            · simp only [Except.ok.injEq, Prod.mk.injEq] at h
              obtain ⟨h1, _⟩ := h
              rw [← h1]
              constructor
              · rw [DocIndex.setList_pages, DocIndex.setList_pages]
              · rw [DocIndex.setList_maxPage, DocIndex.setList_maxPage]
            · simp at h
        · split at h
          · simp only [Except.ok.injEq, Prod.mk.injEq] at h
            obtain ⟨h1, _⟩ := h
            rw [← h1]
            constructor
            · show (DocIndex.setList st _ _).pages = st.pages
              rw [DocIndex.setList_pages]
            · show (DocIndex.setList st _ _).maxPage = st.maxPage
              rw [DocIndex.setList_maxPage]
          · simp at h
        · simp at h


/-- The page-copy loop of `_DocIndex.index` expressed through the named
step function `pageStep`. -/
theorem indexPages_eq (st : DocIndex) (dps : List (Int × PageItem))
    (delta : Int) :
    indexPages st dps delta =
      { st with
        pages := (dps.foldl (pageStep delta) (st.pages, none)).1,
        maxPage := match (dps.foldl (pageStep delta) (st.pages, none)).2 with
                   | none => st.maxPage
                   | some m => m } := rfl

/-- Inserting a page number absent from the registry appends it. -/
theorem pagesInsert_not_mem (k : Int) (v : PageItem) :
    ∀ l : List (Int × PageItem), k ∉ l.map Prod.fst →
      pagesInsert k v l = l ++ [(k, v)]
  | [], _ => rfl
  | e :: rest, h => by
      have hne : e.1 ≠ k := by
        intro hc; exact h (by simp [hc])
      have hrest : k ∉ rest.map Prod.fst := by
        intro hc; exact h (by simp [hc])
      simp only [pagesInsert, if_neg hne, List.cons_append,
        pagesInsert_not_mem k v rest hrest]

/-- The registry component of the page-copy fold: when every shifted page
number is fresh and the shifted numbers are distinct, the fold appends
the shifted pages in order. -/
theorem pageFoldFst (delta : Int) :
    ∀ (dps : List (Int × PageItem)) (pages : List (Int × PageItem))
      (o : Option Int),
      (∀ e ∈ dps, (e.1 + delta) ∉ pages.map Prod.fst) →
      (dps.map (fun e => e.1 + delta)).Nodup →
      (dps.foldl (pageStep delta) (pages, o)).1 =
        pages ++ dps.map (fun e => (e.1 + delta, { page_no := e.1 + delta }))
  | [], pages, o, _, _ => by simp
  | e :: rest, pages, o, hfresh, hnd => by
      have hinsert : pagesInsert (e.1 + delta) { page_no := e.1 + delta } pages
          = pages ++ [(e.1 + delta, { page_no := e.1 + delta })] :=
        pagesInsert_not_mem _ _ _ (hfresh e (List.mem_cons_self e rest))
      have hnd' : (rest.map (fun x => x.1 + delta)).Nodup :=
        (List.nodup_cons.mp hnd).2
      have hne : ∀ x ∈ rest, x.1 + delta ≠ e.1 + delta := by
        intro x hx hc
        have hmem : e.1 + delta ∈ rest.map (fun y => y.1 + delta) := by
          rw [← hc]; exact List.mem_map_of_mem _ hx
        exact (List.nodup_cons.mp hnd).1 hmem
      have hfresh' : ∀ x ∈ rest, (x.1 + delta) ∉
          (pages ++ [(e.1 + delta, ({ page_no := e.1 + delta } : PageItem))]).map
            Prod.fst := by
        intro x hx
        simp only [List.map_append, List.mem_append, List.map_cons,
          List.map_nil, List.mem_cons, List.not_mem_nil]
        rintro (hin | hin | hin)
        · exact hfresh x (List.mem_cons_of_mem _ hx) hin
        · exact hne x hx hin
        · exact hin
      have hrec := fun o' => pageFoldFst delta rest
        (pages ++ [(e.1 + delta, ({ page_no := e.1 + delta } : PageItem))])
        o' hfresh' hnd'
      cases o with
      | none =>
          show (rest.foldl (pageStep delta)
              (pagesInsert (e.1 + delta) { page_no := e.1 + delta } pages,
               some (e.1 + delta))).1 = _
          rw [hinsert, hrec (some (e.1 + delta)), List.map_cons,
            List.append_assoc]
          rfl
      | some m =>
          show (rest.foldl (pageStep delta)
              (pagesInsert (e.1 + delta) { page_no := e.1 + delta } pages,
               if e.1 + delta > m then some (e.1 + delta) else some m)).1 = _
          rw [hinsert, hrec _, List.map_cons, List.append_assoc]
          rfl

/-- The running-maximum component of the page-copy fold only depends on
the maximum accumulator. -/
theorem pageFoldSnd (delta : Int) :
    ∀ (dps : List (Int × PageItem)) (pages : List (Int × PageItem))
      (o : Option Int),
      (dps.foldl (pageStep delta) (pages, o)).2 =
        dps.foldl (pageMaxStep delta) o
  | [], _, _ => rfl
  | e :: rest, pages, o => by
      show (rest.foldl (pageStep delta) _).2 = rest.foldl (pageMaxStep delta) _
      rw [pageFoldSnd delta rest]
      rfl

/-- The maximum accumulator fold, started from a value, computes a plain
fold of shifted maxima. -/
theorem pageMaxFold_some (delta : Int) :
    ∀ (dps : List (Int × PageItem)) (m : Int),
      dps.foldl (pageMaxStep delta) (some m) =
        some (dps.foldl
          (fun a x => if x.1 + delta > a then x.1 + delta else a) m)
  | [], _ => rfl
  | e :: rest, m => by
      show rest.foldl (pageMaxStep delta) _ = _
      have : pageMaxStep delta (some m) e =
          some (if e.1 + delta > m then e.1 + delta else m) := by
        simp only [pageMaxStep]
        split <;> rfl
      rw [List.foldl_cons, this, pageMaxFold_some delta rest]

/-- Shifting every page number by `delta` shifts the running maximum by
`delta`. -/
theorem pageMaxFold_shift (delta : Int) :
    ∀ (dps : List (Int × PageItem)) (m : Int),
      dps.foldl (fun a x => if x.1 + delta > a then x.1 + delta else a)
          (m + delta) =
        (dps.foldl (fun a x => if x.1 < a then a else x.1) m) + delta
  | [], _ => rfl
  | e :: rest, m => by
      have hpt : (if e.1 + delta > m + delta then e.1 + delta else m + delta)
          = (if e.1 < m then m else e.1) + delta := by
        split_ifs <;> omega
      rw [List.foldl_cons, List.foldl_cons, hpt, pageMaxFold_shift delta rest]

/-- The fold underlying `minKeys` is a lower bound for its seed and for
every traversed key. -/
theorem minKeys_le_aux :
    ∀ (rest : List (Int × PageItem)) (a : Int),
      rest.foldl (fun m x => if x.1 < m then x.1 else m) a ≤ a ∧
      ∀ e ∈ rest, rest.foldl (fun m x => if x.1 < m then x.1 else m) a ≤ e.1
  | [], a => ⟨le_refl a, by intro e he; cases he⟩
  | x :: rest, a => by
      simp only [List.foldl_cons]
      have ih := minKeys_le_aux rest (if x.1 < a then x.1 else a)
      have hstep : (if x.1 < a then x.1 else a) ≤ a ∧
          (if x.1 < a then x.1 else a) ≤ x.1 := by split_ifs <;> omega
      refine ⟨le_trans ih.1 hstep.1, ?_⟩
      intro e he
      rcases List.mem_cons.mp he with h | h
      · rw [h]; exact le_trans ih.1 hstep.2
      · exact ih.2 e h

/-- `minKeys` is a lower bound of the page numbers of a registry. -/
theorem minKeys_le (l : List (Int × PageItem)) (e : Int × PageItem)
    (he : e ∈ l) : minKeys l ≤ e.1 := by
  cases l with
  | nil => cases he
  | cons x rest =>
      rcases List.mem_cons.mp he with h | h
      · exact h ▸ (minKeys_le_aux rest x.1).1
      · exact (minKeys_le_aux rest x.1).2 e h

/-- The fold underlying `maxKeys` is an upper bound for its seed and for
every traversed key. -/
theorem le_maxKeys_aux :
    ∀ (rest : List (Int × PageItem)) (a : Int),
      a ≤ rest.foldl (fun m x => if x.1 < m then m else x.1) a ∧
      ∀ e ∈ rest, e.1 ≤ rest.foldl (fun m x => if x.1 < m then m else x.1) a
  | [], a => ⟨le_refl a, by intro e he; cases he⟩
  | x :: rest, a => by
      simp only [List.foldl_cons]
      have ih := le_maxKeys_aux rest (if x.1 < a then a else x.1)
      have hstep : a ≤ (if x.1 < a then a else x.1) ∧
          x.1 ≤ (if x.1 < a then a else x.1) := by split_ifs <;> omega
      refine ⟨le_trans hstep.1 ih.1, ?_⟩
      intro e he
      rcases List.mem_cons.mp he with h | h
      · rw [h]; exact le_trans hstep.2 ih.1
      · exact ih.2 e h

/-- `maxKeys` is an upper bound of the page numbers of a registry. -/
theorem le_maxKeys (l : List (Int × PageItem)) (e : Int × PageItem)
    (he : e ∈ l) : e.1 ≤ maxKeys l := by
  cases l with
  | nil => cases he
  | cons x rest =>
      rcases List.mem_cons.mp he with h | h
      · exact h ▸ (le_maxKeys_aux rest x.1).1
      · exact (le_maxKeys_aux rest x.1).2 e h


/-- `indexPages` with fresh, distinct shifted page numbers appends the
shifted pages and records their maximum as the new running maximum. -/
theorem indexPages_spec (st : DocIndex) (dps : List (Int × PageItem))
    (delta : Int)
    (hnd : (dps.map (fun e => e.1 + delta)).Nodup)
    (hfresh : ∀ e ∈ dps, (e.1 + delta) ∉ st.pages.map Prod.fst) :
    (indexPages st dps delta).pages =
      st.pages ++ dps.map (fun e => (e.1 + delta, { page_no := e.1 + delta }))
    ∧ (indexPages st dps delta).maxPage =
      (match dps with
       | [] => st.maxPage
       | _ :: _ => maxKeys dps + delta) := by
  rw [indexPages_eq]
  refine ⟨pageFoldFst delta dps st.pages none hfresh hnd, ?_⟩
  show (match (dps.foldl (pageStep delta) (st.pages, none)).2 with
        | none => st.maxPage
        | some m => m) = _
  rw [pageFoldSnd delta dps st.pages none]
  cases dps with
  | nil => rfl
  | cons e rest =>
      show (match rest.foldl (pageMaxStep delta) (some (e.1 + delta)) with
            | none => st.maxPage
            | some m => m) = maxKeys (e :: rest) + delta
      rw [pageMaxFold_some delta rest (e.1 + delta),
        pageMaxFold_shift delta rest e.1]
      rfl

/-- Folding the item indexer over a traversal leaves the page registry
and the running page maximum unchanged. -/
theorem foldIndexItems_preserves (delta : Int) :
    ∀ (items : List Node) (st : DocIndex) (map : List (Ref × Ref))
      (st' : DocIndex) (map' : List (Ref × Ref)),
      foldIndexItems delta st map items = .ok (st', map') →
      st'.pages = st.pages ∧ st'.maxPage = st.maxPage
  | [], st, map, st', map', h => by
      simp only [foldIndexItems, Except.ok.injEq, Prod.mk.injEq] at h
      rw [← h.1]
      exact ⟨rfl, rfl⟩
  | it :: rest, st, map, st', map', h => by
      simp only [foldIndexItems] at h
      cases hone : indexOneItem st map it delta with
      | error e => rw [hone] at h; cases h
      | ok p =>
          rw [hone] at h
          have h1 := indexOneItem_preserves st map it delta p.1 p.2
            (by rw [hone])
          have h2 := foldIndexItems_preserves delta rest p.1 p.2 st' map' h
          exact ⟨h2.1.trans h1.1, h2.2.trans h1.2⟩


/-- One `_DocIndex.index` call on a document with distinct page numbers:
the document's pages are appended shifted by `shiftDelta` (running
maximum − document minimum + 1), the running maximum advances to the
shifted document maximum, every registered page number stays bounded by
the running maximum, and distinctness of the registry is preserved. -/
theorem index_step (st : DocIndex) (fuel : Nat) (doc : DoclingDocument)
    (st' : DocIndex)
    (hkeys : (doc.pages.map Prod.fst).Nodup)
    (hbound : ∀ k ∈ st.pages.map Prod.fst, k ≤ st.maxPage)
    (h : st.index fuel doc = .ok st') :
    st'.pages.map Prod.fst =
      st.pages.map Prod.fst ++
        doc.pages.map (fun e => e.1 + shiftDelta st.maxPage doc.pages)
    ∧ st'.maxPage =
      (if doc.pages.isEmpty then st.maxPage
       else maxKeys doc.pages + shiftDelta st.maxPage doc.pages)
    ∧ (∀ k ∈ st'.pages.map Prod.fst, k ≤ st'.maxPage)
    ∧ ((st.pages.map Prod.fst).Nodup → (st'.pages.map Prod.fst).Nodup) := by
  unfold DocIndex.index at h
  dsimp only at h
  cases hIt : iterateWithStack doc true true none allLayers fuel doc.body [] with
  | error e =>
      rw [hIt] at h
      dsimp only [Bind.bind, Except.bind] at h
      cases h
  | ok items =>
      rw [hIt] at h
      dsimp only [Bind.bind, Except.bind] at h
      cases hF : foldIndexItems
          (if doc.pages.isEmpty = true then 0
           else st.maxPage - minKeys doc.pages + 1)
          { (if st.bodyOpt.isNone = true then
               { st with bodyOpt := some { doc.body with children := [] } }
             else st) with
            names := (if st.bodyOpt.isNone = true then
               { st with bodyOpt := some { doc.body with children := [] } }
             else st).names ++ [doc.name] }
          [] (items.map (fun it => it.1)) with
      | error e => rw [hF] at h; cases h
      | ok p =>
          rw [hF] at h
          obtain ⟨st1, m1⟩ := p
          simp only [Except.ok.injEq] at h
          have hpres := foldIndexItems_preserves _ _ _ _ st1 m1 hF
          have hmidpg : ({ (if st.bodyOpt.isNone = true then
               { st with bodyOpt := some { doc.body with children := [] } }
             else st) with
            names := (if st.bodyOpt.isNone = true then
               { st with bodyOpt := some { doc.body with children := [] } }
             else st).names ++ [doc.name] } : DocIndex).pages = st.pages := by
            split <;> rfl
          have hmidmx : ({ (if st.bodyOpt.isNone = true then
               { st with bodyOpt := some { doc.body with children := [] } }
             else st) with
            names := (if st.bodyOpt.isNone = true then
               { st with bodyOpt := some { doc.body with children := [] } }
             else st).names ++ [doc.name] } : DocIndex).maxPage = st.maxPage := by
            split <;> rfl
          have hst1pg : st1.pages = st.pages := hpres.1.trans hmidpg
          have hst1mx : st1.maxPage = st.maxPage := hpres.2.trans hmidmx
          cases hdp : doc.pages with
          | nil =>
              rw [hdp] at h
              have h0 : (if ([] : List (Int × PageItem)).isEmpty = true then (0 : Int)
                  else st.maxPage - minKeys [] + 1) = 0 := rfl
              rw [h0] at h
              have hspec := indexPages_spec st1 [] 0 (by simp)
                (by intro e he; cases he)
              clear hF hIt
              rw [← h]
              refine ⟨?_, ?_, ?_, fun hn => ?_⟩
              · rw [hspec.1, hst1pg]; simp
              · rw [hspec.2, hst1mx]; simp
              · intro k hk
                rw [hspec.1, hst1pg] at hk
                simp only [List.map_nil, List.append_nil] at hk
                rw [hspec.2, hst1mx]
                exact hbound k hk
              · rw [hspec.1, hst1pg]
                simpa using hn
          | cons e0 rest0 =>
              rw [hdp] at h hkeys
              have hne0 : ((e0 :: rest0 : List (Int × PageItem)).isEmpty) = false := rfl
              rw [hne0] at h
              simp only [Bool.false_eq_true, if_false] at h
              clear hF hIt
              set dps := (e0 :: rest0 : List (Int × PageItem)) with hdps
              set delta := st.maxPage - minKeys dps + 1 with hdelta
              have hne1 : dps.isEmpty = false := by rw [hdps]; rfl
              have hshift : shiftDelta st.maxPage dps = delta := by
                unfold shiftDelta
                rw [hne1]
                simp only [Bool.false_eq_true, if_false]
              have hinj : Function.Injective (fun k : Int => k + delta) := by
                intro a b hab
                simpa using hab
              have hnd : (dps.map (fun e => e.1 + delta)).Nodup := by
                have hmm : dps.map (fun e => e.1 + delta)
                    = (dps.map Prod.fst).map (fun k => k + delta) := by
                  rw [List.map_map]; rfl
                rw [hmm]
                exact hkeys.map hinj
              have hlow : ∀ e ∈ dps, st.maxPage < e.1 + delta := by
                intro e he
                have := minKeys_le dps e he
                omega
              have hfresh : ∀ e ∈ dps, (e.1 + delta) ∉ st1.pages.map Prod.fst := by
                intro e he hc
                rw [hst1pg] at hc
                have := hbound _ hc
                have := hlow e he
                omega
              have hspec := indexPages_spec st1 dps delta hnd hfresh
              have hpgmap : st'.pages.map Prod.fst =
                  st.pages.map Prod.fst ++ dps.map (fun e => e.1 + delta) := by
                rw [← h, hspec.1, hst1pg, List.map_append, List.map_map]
                rfl
              have hmx : st'.maxPage = maxKeys dps + delta := by
                rw [← h, hspec.2]
              refine ⟨?_, ?_, ?_, ?_⟩
              · rw [hpgmap, hshift]
              · rw [hne1]
                simp only [Bool.false_eq_true, if_false]
                rw [hmx, hshift]
              · intro k hk
                rw [hpgmap] at hk
                rw [hmx]
                rcases List.mem_append.mp hk with hin | hin
                · have h1 := hbound _ hin
                  have h2 := le_maxKeys dps e0 (List.mem_cons_self e0 rest0)
                  have h3 := minKeys_le dps e0 (List.mem_cons_self e0 rest0)
                  omega
                · rcases List.mem_map.mp hin with ⟨e, he, hke⟩
                  have := le_maxKeys dps e he
                  omega
              · intro hndold
                rw [hpgmap]
                refine List.Nodup.append hndold hnd ?_
                intro a hold hnew
                have h1 := hbound _ hold
                rcases List.mem_map.mp hnew with ⟨e, he, hke⟩
                have h2 := hlow e he
                omega


/-- Folding `_DocIndex.index` over a document list realises exactly the
page numbers of `concatKeysSpec`, and keeps them distinct. -/
theorem concat_fold (fuel : Nat) :
    ∀ (docs : List DoclingDocument) (st di : DocIndex),
      (∀ doc ∈ docs, (doc.pages.map Prod.fst).Nodup) →
      (∀ k ∈ st.pages.map Prod.fst, k ≤ st.maxPage) →
      (st.pages.map Prod.fst).Nodup →
      List.foldlM (fun st doc => st.index fuel doc) st docs = .ok di →
      di.pages.map Prod.fst =
        st.pages.map Prod.fst ++ concatKeysSpec st.maxPage docs ∧
      (di.pages.map Prod.fst).Nodup
  | [], st, di, _, _, hnd, h => by
      simp only [List.foldlM_nil] at h
      cases h
      refine ⟨?_, hnd⟩
      rw [show concatKeysSpec st.maxPage [] = [] from rfl, List.append_nil]
  | doc :: rest, st, di, hdocs, hbound, hnd, h => by
      rw [List.foldlM_cons] at h
      cases hI : st.index fuel doc with
      | error e =>
          rw [hI] at h
          dsimp only [Bind.bind, Except.bind] at h
          cases h
      | ok st1 =>
          rw [hI] at h
          dsimp only [Bind.bind, Except.bind] at h
          have hstep := index_step st fuel doc st1
            (hdocs doc (List.mem_cons_self doc rest)) hbound hI
          have ih := concat_fold fuel rest st1 di
            (fun d hd => hdocs d (List.mem_cons_of_mem _ hd))
            hstep.2.2.1 (hstep.2.2.2 hnd) h
          refine ⟨?_, ih.2⟩
          show di.pages.map Prod.fst = st.pages.map Prod.fst ++
            (doc.pages.map (fun e => e.1 + shiftDelta st.maxPage doc.pages) ++
              concatKeysSpec
                (if doc.pages.isEmpty then st.maxPage
                 else maxKeys doc.pages + shiftDelta st.maxPage doc.pages)
                rest)
          rw [ih.1, hstep.1, hstep.2.1, List.append_assoc]


/-- C4 (amended): `concatenate` merges the page registries by offsetting
each document's page numbers by `running maximum − min(doc pages) + 1`
(`0` for a pageless document), the running maximum then advancing to the
document's shifted maximum — not by the running maximum itself.  For any
document list with per-document distinct page numbers the result's page
numbers are exactly this offset concatenation and are pairwise distinct
(no collision).  In the two-document scenario of the claim (pages
`{1, 2}` each) the result has pages `{1, 2, 3, 4}`, and every provenance
page number in the nodes originating from the second source document
(the last two texts of the result) is shifted by exactly `2`: doc `B`'s
texts carry provenance pages `[[1], [2]]` and the corresponding result
texts carry `[[3], [4]]`. -/
theorem c4_concatenate_page_offsets :
    (∀ (fuel : Nat) (docs : List DoclingDocument) (res : DoclingDocument),
      DoclingDocument.concatenate fuel docs = .ok res →
      (∀ doc ∈ docs, (doc.pages.map Prod.fst).Nodup) →
      res.pages.map Prod.fst = concatKeysSpec 0 docs ∧
      (res.pages.map Prod.fst).Nodup) ∧
    DoclingDocument.concatenate 30 [c4DocA, c4DocB] = Except.ok c4ScenRes ∧
    c4ScenRes.pages.map Prod.fst = [1, 2, 3, 4] ∧
    concatKeysSpec 0 [c4DocA, c4DocB] = [1, 2, 3, 4] ∧
    c4DocB.texts.map (fun n => n.prov.map (fun p => p.page_no)) = [[1], [2]] ∧
    c4ScenRes.texts.map (fun n => n.prov.map (fun p => p.page_no)) =
      [[1], [2], [3], [4]] ∧
    (c4ScenRes.texts.drop 2).map (fun n => n.prov.map (fun p => p.page_no)) =
      c4DocB.texts.map (fun n => n.prov.map (fun p => p.page_no + 2)) := by
  refine ⟨?_, rfl, rfl, by decide, by decide, by decide, by decide⟩
  intro fuel docs res h hdocs
  unfold DoclingDocument.concatenate at h
  cases hF : List.foldlM (fun st doc => st.index fuel doc) DocIndex.empty docs with
  | error e =>
      rw [hF] at h
      dsimp only [Bind.bind, Except.bind] at h
      cases h
  | ok di =>
      rw [hF] at h
      dsimp only [Bind.bind, Except.bind] at h
      simp only [Except.ok.injEq] at h
      have hfold := concat_fold fuel docs DocIndex.empty di hdocs
        (by intro k hk; cases hk) (by simp [DocIndex.empty]) hF
      rw [← h]
      show di.pages.map Prod.fst = concatKeysSpec 0 docs ∧
        (di.pages.map Prod.fst).Nodup
      refine ⟨?_, hfold.2⟩
      rw [hfold.1]
      rfl

theorem c4_concatenate_page_offsets_witness :
    c4ScenRes.pages.map Prod.fst = concatKeysSpec 0 [c4DocA, c4DocB] ∧
    (c4ScenRes.pages.map Prod.fst).Nodup :=
  c4_concatenate_page_offsets.1 30 [c4DocA, c4DocB] c4ScenRes rfl (by decide)

end Docling
